import Mathlib

/-!
# The SOCKS5 client of `yookassa`

A shallow embedding of `src/yookassa/socks5_dialer.go` (the handshake
`socks5Dialer.connect`) and of `parseSocks5Proxy` from `src/yookassa/client.go`,
followed by theorems about them.

Conventions of the embedding.

* Go `string` and `[]byte` values are lists of bytes (`Bytes`), a byte being a
  natural number below 256; a conversion `byte(x)` is `x % 256`.
* A Go slice is a window on a backing array: `Slice` keeps the visible part and the
  spare part of the array apart, so that length and capacity are both explicit and
  `s[:n]` can fail the way it does at run time (`n > cap(s)` is a run-time panic).
* The proxy connection is a value `Conn`: the bytes the proxy has still to deliver,
  the buffers written so far and the number of `Write` calls that will still succeed.
* The handshake returns a `Result` (`nil`, an error, or a run-time panic) together
  with the connection as it has left it.
* `connect` is one function in the source; here it is cut at the points where its
  control flow joins again: `connect` (lines 88-116), `connectMethod` (117-143),
  `connectRequest` (145-166), `connectReply` (168-189) and `connectBound` (191-198),
  each ending in a call of the next.
* The functions of the Go standard library that the code calls
  (`net.SplitHostPort`, `strconv.Atoi`, `net.ParseIP`, `IP.To4`, `IP.To16`,
  `url.Parse`) are not part of the repository; they are transcribed here from the
  standard library (Go 1.22) so that the code can be evaluated on concrete inputs.
-/

namespace Yookassa

/-- Go byte strings: each element is a byte value. -/
abbrev Bytes := List Nat

/-- Bytes of an ASCII string literal. -/
def str (s : String) : Bytes := s.toList.map Char.toNat

/-! ## Standard library: `net.SplitHostPort`, `strconv.Atoi` -/

/-- Go `strings.IndexByte`: position of the first occurrence of `c`. -/
def IndexByte : Bytes → Nat → Option Nat
  | [], _ => none
  | x :: xs, c => if x = c then some 0 else (IndexByte xs c).map (· + 1)

/-- Go `strings.LastIndexByte`: position of the last occurrence of `c`. -/
def LastIndexByte (s : Bytes) (c : Nat) : Option Nat :=
  (IndexByte s.reverse c).map (fun k => s.length - 1 - k)

/-- Go `net.SplitHostPort`: `some (host, port)` or `none` for an `AddrError`.
Characters: `':'` is 58, `'['` is 91, `']'` is 93. -/
def SplitHostPort (hostport : Bytes) : Option (Bytes × Bytes) :=
  match LastIndexByte hostport 58 with
  | none => none
  | some i =>
    let bracketed : Option (Bytes × Nat × Nat) :=
      if hostport.head? = some 91 then
        match IndexByte hostport 93 with
        | none => none
        | some e =>
          if e + 1 = hostport.length then none
          else if e + 1 = i then some ((hostport.take e).drop 1, 1, e + 1)
          else none
      else
        let host := hostport.take i
        if (IndexByte host 58).isSome then none else some (host, 0, 0)
    match bracketed with
    | none => none
    | some (host, j, k) =>
      if (IndexByte (hostport.drop j) 91).isSome then none
      else if (IndexByte (hostport.drop k) 93).isSome then none
      else some (host, hostport.drop (i + 1))

/-- Value of a run of decimal digits, `none` when a byte is not a digit. -/
def decimalValue : Nat → Bytes → Option Nat
  | n, [] => some n
  | n, ch :: rest =>
    if 48 ≤ ch ∧ ch ≤ 57 then decimalValue (n * 10 + (ch - 48)) rest else none

/-- Go `strconv.Atoi` on a 64-bit platform: an optional sign, then at least one
decimal digit; `none` for a syntax error or a value outside the `int` range. -/
def Atoi (s : Bytes) : Option Int :=
  let signed : Bool × Bytes :=
    match s with
    | 45 :: r => (true, r)
    | 43 :: r => (false, r)
    | _ => (false, s)
  if signed.2 = [] then none
  else
    match decimalValue 0 signed.2 with
    | none => none
    | some n =>
      if signed.1 then (if n ≤ 2 ^ 63 then some (-(n : Int)) else none)
      else (if n < 2 ^ 63 then some (n : Int) else none)

/-! ## Standard library: `net.ParseIP`, `IP.To4`, `IP.To16` -/

/-- Loop of `netip.parseIPv4Fields`. `prev` is the byte before the current one
(`none` at index 0), `fields` the octets stored so far (`pos` is their number),
`val` and `digLen` the running octet. Returns the stored octets and the last value. -/
def parseIPv4Loop : Option Nat → List Nat → Nat → Nat → Bytes → Option (List Nat × Nat)
  | _, fields, val, _, [] => some (fields, val)
  | prev, fields, val, digLen, c :: rest =>
    if 48 ≤ c ∧ c ≤ 57 then
      if digLen = 1 ∧ val = 0 then none
      else if val * 10 + (c - 48) > 255 then none
      else parseIPv4Loop (some c) fields (val * 10 + (c - 48)) (digLen + 1) rest
    else if c = 46 then
      if prev = none ∨ rest = [] ∨ prev = some 46 then none
      else if fields.length = 3 then none
      else parseIPv4Loop (some c) (fields ++ [val]) 0 0 rest
    else none

/-- Go `netip.parseIPv4Fields` on the whole of `s`: the four octets. -/
def parseIPv4Fields (s : Bytes) : Option Bytes :=
  match parseIPv4Loop none [] 0 0 s with
  | none => none
  | some (fields, val) => if fields.length < 3 then none else some (fields ++ [val])

/-- Value of a hexadecimal digit. -/
def hexVal (c : Nat) : Option Nat :=
  if 48 ≤ c ∧ c ≤ 57 then some (c - 48)
  else if 97 ≤ c ∧ c ≤ 102 then some (c - 97 + 10)
  else if 65 ≤ c ∧ c ≤ 70 then some (c - 65 + 10)
  else none

/-- Inner loop of `netip.parseIPv6`: reads one group of hexadecimal digits.
Returns the number of digits, the value and the rest of the input. -/
def scanHex : Nat → Nat → Bytes → Option (Nat × Nat × Bytes)
  | off, acc, [] => some (off, acc, [])
  | off, acc, c :: rest =>
    match hexVal c with
    | none => some (off, acc, c :: rest)
    | some v =>
      if off > 3 then none
      else if (acc * 16 + v) % 2 ^ 32 > 65535 then none
      else scanHex (off + 1) ((acc * 16 + v) % 2 ^ 32) rest

/-- Outer loop of `netip.parseIPv6` (`for i < 16`): `ip` holds the `i` bytes filled
so far, `ellipsis` the position of `::`. The first argument bounds the number of
iterations (each one adds two bytes, so eight are enough). -/
def parseIPv6Loop : Nat → Bytes → Option Nat → Bytes → Option (Bytes × Option Nat × Bytes)
  | 0, ip, ellipsis, s => some (ip, ellipsis, s)
  | fuel + 1, ip, ellipsis, s =>
    if 16 ≤ ip.length then some (ip, ellipsis, s)
    else
      match scanHex 0 0 s with
      | none => none
      | some (off, acc, rest) =>
        if off = 0 then none
        else if rest.head? = some 46 then
          if ellipsis = none ∧ ip.length ≠ 12 then none
          else if ip.length + 4 > 16 then none
          else
            match parseIPv4Fields s with
            | none => none
            | some fields => some (ip ++ fields, ellipsis, [])
        else
          let ip := ip ++ [acc / 256 % 256, acc % 256]
          if rest = [] then some (ip, ellipsis, [])
          else if rest.head? ≠ some 58 then none
          else if rest.length = 1 then none
          else
            let s := rest.drop 1
            if s.head? = some 58 then
              if ellipsis.isSome then none
              else if s.drop 1 = [] then some (ip, some ip.length, [])
              else parseIPv6Loop fuel ip (some ip.length) (s.drop 1)
            else parseIPv6Loop fuel ip ellipsis s

/-- Start of `netip.parseIPv6`: splits the zone off at the first `'%'` (37); an
empty zone is an error. -/
def splitZone (input : Bytes) : Option (Bytes × Bytes) :=
  match IndexByte input 37 with
  | none => some (input, [])
  | some i => if input.drop (i + 1) = [] then none else some (input.take i, input.drop (i + 1))

/-- End of `netip.parseIPv6`: the whole string must have been used, and the ellipsis
is expanded when fewer than 16 bytes were filled. -/
def expandEllipsis (loop : Option (Bytes × Option Nat × Bytes)) (zone : Bytes) :
    Option (Bytes × Bytes) :=
  match loop with
  | none => none
  | some (ip, ellipsis, rest) =>
    if rest ≠ [] then none
    else if ip.length < 16 then
      match ellipsis with
      | none => none
      | some e => some (ip.take e ++ List.replicate (16 - ip.length) 0 ++ ip.drop e, zone)
    else if ellipsis.isSome then none
    else some (ip, zone)

/-- Go `netip.parseIPv6`: the 16 address bytes and the zone. -/
def parseIPv6 (input : Bytes) : Option (Bytes × Bytes) :=
  match splitZone input with
  | none => none
  | some (s, zone) =>
    match s with
    | 58 :: 58 :: rest =>
      if rest = [] then some (List.replicate 16 0, zone)
      else expandEllipsis (parseIPv6Loop 8 [] (some 0) rest) zone
    | _ => expandEllipsis (parseIPv6Loop 8 [] none s) zone

/-- The 16-byte form of an IPv4 address (`Addr.As16`, `net.IPv4`). -/
def v4InV6 (ip4 : Bytes) : Bytes := [0, 0, 0, 0, 0, 0, 0, 0, 0, 0, 255, 255] ++ ip4

/-- Go `netip.ParseAddr` followed by `As16`: the first of `'.'`, `':'`, `'%'` in the
string selects the parser. -/
def parseAddr (s : Bytes) : Bytes → Option (Bytes × Bytes)
  | [] => none
  | c :: rest =>
    if c = 46 then (parseIPv4Fields s).map (fun f => (v4InV6 f, []))
    else if c = 58 then parseIPv6 s
    else if c = 37 then none
    else parseAddr s rest

/-- Go `net.ParseIP`: the 16-byte address, or `[]` for `nil`. Addresses with a
zone are rejected. -/
def ParseIP (s : Bytes) : Bytes :=
  match parseAddr s s with
  | none => []
  | some (ip, zone) => if zone = [] then ip else []

/-- Go `IP.To4`: the 4-byte form, or `[]` for `nil`. -/
def To4 (ip : Bytes) : Bytes :=
  if ip.length = 4 then ip
  else if ip.length = 16 ∧ ip.take 10 = List.replicate 10 0 ∧ ip.getD 10 0 = 255
      ∧ ip.getD 11 0 = 255 then ip.drop 12
  else []

/-- Go `IP.To16`: the 16-byte form, or `[]` for `nil`. -/
def To16 (ip : Bytes) : Bytes :=
  if ip.length = 4 then v4InV6 ip
  else if ip.length = 16 then ip
  else []

/-! ## Slices and the proxy connection -/

/-- A Go `[]byte`: `data` is the visible part (`len` is its length) and `spare` the
rest of the backing array (`cap` is the length of both together). -/
structure Slice where
  data : Bytes
  spare : Bytes
  deriving Repr, DecidableEq

namespace Slice

/-- Go `len(s)`. -/
def len (s : Slice) : Nat := s.data.length

/-- Go `cap(s)`. -/
def cap (s : Slice) : Nat := s.data.length + s.spare.length

/-- Go `make([]byte, 0, c)`. -/
def make (c : Nat) : Slice := ⟨[], List.replicate c 0⟩

/-- Go `append(s, xs...)`. While the capacity suffices the backing array is reused;
otherwise a new array is allocated, whose capacity the language leaves to the run
time (only "sufficiently large"): `grow cap needed` stands for the run time's
choice and is never taken below what is needed. -/
def append (grow : Nat → Nat → Nat) (s : Slice) (xs : Bytes) : Slice :=
  if xs.length ≤ s.spare.length then ⟨s.data ++ xs, s.spare.drop xs.length⟩
  else ⟨s.data ++ xs, List.replicate (grow s.cap (s.len + xs.length) - (s.len + xs.length)) 0⟩

/-- Go `s[:n]`: `none` is the run-time panic for `n > cap(s)`. -/
def upto (s : Slice) (n : Nat) : Option Slice :=
  if n ≤ s.cap then some ⟨(s.data ++ s.spare).take n, (s.data ++ s.spare).drop n⟩ else none

/-- Go `s[i]`: `none` is the run-time panic for `i ≥ len(s)`. -/
def index (s : Slice) (i : Nat) : Option Nat := s.data.get? i

/-- Effect on `s` of storing `bytes` at the start of its backing array (what a read
into `s[:n]` does): the length of `s` is unchanged. -/
def fill (s : Slice) (bytes : Bytes) : Slice :=
  ⟨(bytes ++ (s.data ++ s.spare).drop bytes.length).take s.data.length,
   (bytes ++ (s.data ++ s.spare).drop bytes.length).drop s.data.length⟩

end Slice

/-- The connection to the proxy, as the handshake sees it. -/
structure Conn where
  /-- Bytes the proxy delivers, not read yet. -/
  incoming : Bytes
  /-- The buffers of the `Write` calls that succeeded, oldest first. -/
  written : List Bytes
  /-- How many further `Write` calls succeed; the next one after that fails. -/
  writeBudget : Nat
  deriving Repr, DecidableEq

/-- Go `conn.Write(b)`: `none` when the write fails. -/
def Conn.Write (conn : Conn) (b : Bytes) : Option Conn :=
  match conn.writeBudget with
  | 0 => none
  | k + 1 => some { conn with written := conn.written ++ [b], writeBudget := k }

/-- Result of `io.ReadFull(conn, buf[:n])`. -/
inductive ReadResult where
  /-- The slice expression `buf[:n]` panicked. -/
  | panic
  /-- Fewer than `n` bytes arrived: `io.ReadFull` returns an error. -/
  | short (conn : Conn)
  /-- All `n` bytes were read into the backing array of `buf`. -/
  | done (buf : Slice) (conn : Conn)
  deriving Repr, DecidableEq

/-- Go `io.ReadFull(conn, buf[:n])`. -/
def ReadFull (conn : Conn) (buf : Slice) (n : Nat) : ReadResult :=
  match buf.upto n with
  | none => .panic
  | some _ =>
    if n ≤ conn.incoming.length then
      .done (buf.fill (conn.incoming.take n)) { conn with incoming := conn.incoming.drop n }
    else .short { conn with incoming := [] }

/-! ## `socks5_dialer.go` -/

/-- Go `socks5Dialer` (the `net.Dialer` field plays no part in the handshake). -/
structure socks5Dialer where
  address : Bytes
  username : Bytes
  password : Bytes
  deriving Repr, DecidableEq

def socks5Version : Nat := 5
def socks5AuthNone : Nat := 0
def socks5AuthPassword : Nat := 2
def socks5Connect : Nat := 1
def socks5IP4 : Nat := 1
def socks5Domain : Nat := 3
def socks5IP6 : Nat := 4

/-- Go `socks5Errors`. -/
def socks5Errors : List String :=
  [ "",
    "general failure",
    "connection forbidden",
    "network unreachable",
    "host unreachable",
    "connection refused",
    "TTL expired",
    "command not supported",
    "address type not supported" ]

/-- The errors `connect` returns, one constructor for each `return` of an error in
the source, with the part of the message that varies. -/
inductive Err where
  /-- The error of `net.SplitHostPort`. -/
  | splitHostPort
  /-- Message "proxy: failed to parse port number: " + portStr -/
  | parsePort (portStr : Bytes)
  /-- Message "proxy: port number out of range: " + portStr -/
  | portOutOfRange (portStr : Bytes)
  /-- Message "proxy: failed to write greeting to SOCKS5 proxy at ..." -/
  | writeGreeting
  /-- Message "proxy: failed to read greeting from SOCKS5 proxy at ..." -/
  | readGreeting
  /-- Message "proxy: SOCKS5 proxy at ... has unexpected version " + version -/
  | unexpectedVersion (version : Nat)
  /-- Message "proxy: SOCKS5 proxy at ... requires authentication" -/
  | requiresAuthentication
  /-- Message "proxy: SOCKS5 proxy at ... requires username/password" -/
  | requiresUsernamePassword
  /-- Message "proxy: failed to write authentication request to SOCKS5 proxy at ..." -/
  | writeAuthentication
  /-- Message "proxy: failed to read authentication reply from SOCKS5 proxy at ..." -/
  | readAuthentication
  /-- Message "proxy: SOCKS5 proxy at ... rejected username/password" -/
  | rejectedUsernamePassword
  /-- Message "proxy: destination host name too long: " + host -/
  | hostNameTooLong (host : Bytes)
  /-- Message "proxy: failed to write connect request to SOCKS5 proxy at ..." -/
  | writeConnect
  /-- Message "proxy: failed to read connect reply from SOCKS5 proxy at ..." -/
  | readConnectReply
  /-- Message "proxy: SOCKS5 proxy at ... failed to connect: " + failure -/
  | failedToConnect (failure : String)
  /-- Message "proxy: failed to read domain length from SOCKS5 proxy at ..." -/
  | readDomainLength
  /-- Message "proxy: got unknown address type " + atype + " from SOCKS5 proxy at ..." -/
  | unknownAddressType (atype : Nat)
  /-- Message "proxy: failed to read address from SOCKS5 proxy at ..." -/
  | readAddress
  /-- Message "proxy: failed to read port from SOCKS5 proxy at ..." -/
  | readPort
  deriving Repr, DecidableEq

/-- What a call of `connect` ends in. -/
inductive Result where
  /-- `return nil`. -/
  | ok
  /-- `return` of an error. -/
  | error (e : Err)
  /-- A run-time panic (slice bounds or index out of range). -/
  | panic
  deriving Repr, DecidableEq

/-- Lines 191-198 of `connect`: reads the bound address into `buf` (the scratch
buffer resliced to the length of the address, `none` when that reslicing panicked),
then the two port bytes. -/
def connectBound (conn : Conn) (buf : Option Slice) : Result × Conn :=
  match buf with
  | none => (.panic, conn)
  | some buf =>
    match ReadFull conn buf buf.len with
    | .panic => (.panic, conn)
    | .short conn => (.error .readAddress, conn)
    | .done buf conn =>
      match ReadFull conn buf 2 with
      | .panic => (.panic, conn)
      | .short conn => (.error .readPort, conn)
      | .done _ conn => (.ok, conn)

/-- Lines 168-189 of `connect`, continued by `connectBound`: reads the four header
bytes of the CONNECT reply, checks the status and sizes the bound address. `buf` is
the scratch buffer as the CONNECT request has left it. -/
def connectReply (conn : Conn) (buf : Slice) : Result × Conn :=
  match ReadFull conn buf 4 with
  | .panic => (.panic, conn)
  | .short conn => (.error .readConnectReply, conn)
  | .done buf conn =>
    match buf.index 1 with
    | none => (.panic, conn)
    | some status =>
      if status < socks5Errors.length ∧ socks5Errors.getD status "" ≠ "" then
        (.error (.failedToConnect (socks5Errors.getD status "")), conn)
      else
        match buf.index 3 with
        | none => (.panic, conn)
        | some atype =>
          if atype = socks5IP4 then connectBound conn (buf.upto 4)
          else if atype = socks5IP6 then connectBound conn (buf.upto 16)
          else if atype = socks5Domain then
            match ReadFull conn buf 1 with
            | .panic => (.panic, conn)
            | .short conn => (.error .readDomainLength, conn)
            | .done buf conn =>
              match buf.index 0 with
              | none => (.panic, conn)
              | some l => connectBound conn (buf.upto l)
          else (.error (.unknownAddressType atype), conn)

/-- Lines 145-166 of `connect`, continued by `connectReply`: builds and writes the
CONNECT request for `host` and `port` (already checked to lie in 1..65535). -/
def connectRequest (grow : Nat → Nat → Nat) (conn : Conn) (buf : Slice)
    (host : Bytes) (port : Nat) : Result × Conn :=
  match buf.upto 0 with
  | none => (.panic, conn)
  | some buf =>
    let buf := buf.append grow [socks5Version, socks5Connect, 0]
    let ip := ParseIP host
    let addr : Option Slice :=
      if To4 ip ≠ [] then
        some ((buf.append grow [socks5IP4]).append grow (To4 ip))
      else if To16 ip ≠ [] then
        some ((buf.append grow [socks5IP6]).append grow (To16 ip))
      else if host.length > 255 then none
      else
        some (((buf.append grow [socks5Domain]).append grow [host.length % 256]).append grow host)
    match addr with
    | none => (.error (.hostNameTooLong host), conn)
    | some buf =>
      let buf := buf.append grow [port / 256 % 256, port % 256]
      match conn.Write buf.data with
      | none => (.error .writeConnect, conn)
      | some conn => connectReply conn buf

/-- Lines 117-143 of `connect`, continued by `connectRequest`: checks the greeting
reply held in `buf` and, when the proxy chose username/password, runs the
authentication exchange. -/
def connectMethod (grow : Nat → Nat → Nat) (d : socks5Dialer) (conn : Conn) (buf : Slice)
    (host : Bytes) (port : Nat) : Result × Conn :=
  match buf.index 0 with
  | none => (.panic, conn)
  | some version =>
    if version ≠ socks5Version then (.error (.unexpectedVersion version), conn)
    else
      match buf.index 1 with
      | none => (.panic, conn)
      | some method =>
        if method = 0xff then (.error .requiresAuthentication, conn)
        else if method = socks5AuthPassword then
          if d.username.length = 0 ∨ d.username.length ≥ 256 ∨ d.password.length ≥ 256 then
            (.error .requiresUsernamePassword, conn)
          else
            match buf.upto 0 with
            | none => (.panic, conn)
            | some buf =>
              let buf := buf.append grow [1]
              let buf := buf.append grow [d.username.length % 256]
              let buf := buf.append grow d.username
              let buf := buf.append grow [d.password.length % 256]
              let buf := buf.append grow d.password
              match conn.Write buf.data with
              | none => (.error .writeAuthentication, conn)
              | some conn =>
                match ReadFull conn buf 2 with
                | .panic => (.panic, conn)
                | .short conn => (.error .readAuthentication, conn)
                | .done buf conn =>
                  match buf.index 1 with
                  | none => (.panic, conn)
                  | some status =>
                    if status ≠ 0 then (.error .rejectedUsernamePassword, conn)
                    else connectRequest grow conn buf host port
        else connectRequest grow conn buf host port

/-- Go `socks5Dialer.connect` (lines 88-116, continued by `connectMethod`): the
SOCKS5 handshake on `conn` for the destination `target`. -/
def connect (grow : Nat → Nat → Nat) (d : socks5Dialer) (conn : Conn) (target : Bytes) :
    Result × Conn :=
  match SplitHostPort target with
  | none => (.error .splitHostPort, conn)
  | some (host, portStr) =>
    match Atoi portStr with
    | none => (.error (.parsePort portStr), conn)
    | some port =>
      if port < 1 ∨ port > 0xffff then (.error (.portOutOfRange portStr), conn)
      else
        let buf := Slice.make (6 + host.length)
        let buf := buf.append grow [socks5Version]
        let buf :=
          if 0 < d.username.length ∧ d.username.length < 256 ∧ d.password.length < 256 then
            buf.append grow [2, socks5AuthNone, socks5AuthPassword]
          else buf.append grow [1, socks5AuthNone]
        match conn.Write buf.data with
        | none => (.error .writeGreeting, conn)
        | some conn =>
          match ReadFull conn buf 2 with
          | .panic => (.panic, conn)
          | .short conn => (.error .readGreeting, conn)
          | .done buf conn => connectMethod grow d conn buf host port.toNat

/-- A growth policy that allocates exactly what is needed, for evaluating the
handshake on concrete inputs. -/
def exactGrow : Nat → Nat → Nat := fun _ needed => needed

/-- A fresh connection on which the proxy will deliver `incoming` and every write
succeeds. -/
def Conn.fresh (incoming : Bytes) : Conn := ⟨incoming, [], 3⟩

/-- The TCP connection to the proxy as `DialContext` holds it: the byte stream the
handshake works on, whether `Close` has been called, the deadline in force (`none` is
the zero time, no deadline) and whether the connection takes deadlines at all. -/
structure Socket where
  conn : Conn
  closed : Bool
  deadline : Option Nat
  takesDeadlines : Bool
  deriving Repr, DecidableEq

/-- Go `conn.SetDeadline(t)`: `none` when it returns an error, which a TCP connection
does when it is closed or does not support deadlines. -/
def Socket.SetDeadline (s : Socket) (t : Option Nat) : Option Socket :=
  if s.closed ∨ ¬ s.takesDeadlines then none else some { s with deadline := t }

/-- Go `conn.Close()`. -/
def Socket.Close (s : Socket) : Socket := { s with closed := true }

/-- The errors `DialContext` returns. -/
inductive DialErr where
  /-- Message "proxy: no support for SOCKS5 proxy connections of type " + network -/
  | unsupportedNetwork (network : Bytes)
  /-- The error of the dial to the proxy. -/
  | dial
  /-- The error of `conn.SetDeadline`. -/
  | setDeadline
  /-- The error of `connect`. -/
  | handshake (e : Err)
  deriving Repr, DecidableEq

/-- What a call of `DialContext` ends in. -/
inductive DialResult where
  /-- `return conn, nil`. -/
  | connected (conn : Socket)
  /-- `return nil, err`. -/
  | error (e : DialErr)
  /-- A run-time panic raised by `connect`. -/
  | panic
  deriving Repr, DecidableEq

/-- Go `socks5Dialer.DialContext` (lines 31-64). `dialed` is what the dial of line 43
gives (`none` for an error), `ctxDeadline` what `ctx.Deadline()` gives, `now` the
reading of `time.Now()` in nanoseconds. The second component is the connection to
the proxy as the call leaves it, `none` when none was opened. -/
def DialContext (grow : Nat → Nat → Nat) (d : socks5Dialer) (dialed : Option Socket)
    (ctxDeadline : Option Nat) (now : Nat) (network addr : Bytes) :
    DialResult × Option Socket :=
  if network ≠ str "tcp" ∧ network ≠ str "tcp4" ∧ network ≠ str "tcp6" then
    (.error (.unsupportedNetwork network), none)
  else
    match dialed with
    | none => (.error .dial, none)
    | some conn =>
      let deadline := ctxDeadline.getD (now + 30 * 1000000000)
      match conn.SetDeadline (some deadline) with
      | none => (.error .setDeadline, some conn.Close)
      | some conn =>
        match connect grow d conn.conn addr with
        | (.error e, io) => (.error (.handshake e), some (Socket.Close { conn with conn := io }))
        | (.panic, io) => (.panic, some { conn with conn := io })
        | (.ok, io) =>
          match Socket.SetDeadline { conn with conn := io } none with
          | none => (.connected { conn with conn := io }, some { conn with conn := io })
          | some conn => (.connected conn, some conn)

/-! ## Standard library: `net/url` -/

/-- Go `strings.HasPrefix`. -/
def startsWith (s p : Bytes) : Bool := p.isPrefixOf s

/-- Go `strings.Index`: position of the first occurrence of `sub`. -/
def Index : Bytes → Bytes → Option Nat
  | [], sub => if sub = [] then some 0 else none
  | c :: cs, sub =>
    if startsWith (c :: cs) sub then some 0 else (Index cs sub).map (· + 1)

/-- Go `strings.Contains`. -/
def Contains (s sub : Bytes) : Bool := (Index s sub).isSome

/-- Go `strings.Cut` at a single byte: the text before and after its first occurrence. -/
def Cut (s : Bytes) (sep : Nat) : Bytes × Bytes :=
  match IndexByte s sep with
  | none => (s, [])
  | some i => (s.take i, s.drop (i + 1))

/-- Go `url.getScheme`: the scheme and the rest, `none` for "missing protocol scheme". -/
def getScheme (rawURL : Bytes) : Bytes → Nat → Option (Bytes × Bytes)
  | [], _ => some ([], rawURL)
  | c :: rest, i =>
    if (97 ≤ c ∧ c ≤ 122) ∨ (65 ≤ c ∧ c ≤ 90) then getScheme rawURL rest (i + 1)
    else if (48 ≤ c ∧ c ≤ 57) ∨ c = 43 ∨ c = 45 ∨ c = 46 then
      if i = 0 then some ([], rawURL) else getScheme rawURL rest (i + 1)
    else if c = 58 then
      if i = 0 then none else some (rawURL.take i, rawURL.drop (i + 1))
    else some ([], rawURL)

/-- Go `strings.ToLower` on ASCII text. -/
def toLower (s : Bytes) : Bytes := s.map (fun c => if 65 ≤ c ∧ c ≤ 90 then c + 32 else c)

/-- The modes of `url.unescape` that `url.Parse` uses. -/
inductive Encoding where
  | path
  | host
  | zone
  | userPassword
  | fragment
  deriving DecidableEq, Repr

/-- Go `url.ishex`. -/
def ishex (c : Nat) : Bool :=
  decide ((48 ≤ c ∧ c ≤ 57) ∨ (97 ≤ c ∧ c ≤ 102) ∨ (65 ≤ c ∧ c ≤ 70))

/-- Go `url.unhex`. -/
def unhex (c : Nat) : Nat :=
  if 48 ≤ c ∧ c ≤ 57 then c - 48
  else if 97 ≤ c ∧ c ≤ 102 then c - 97 + 10
  else if 65 ≤ c ∧ c ≤ 70 then c - 65 + 10
  else 0

/-- Go `url.shouldEscape(c, encodeHost)` (the same for `encodeZone`): letters, digits,
the sub-delimiters and `: [ ] < > "` and the marks `- _ . ~` need no escape. -/
def shouldEscapeHost (c : Nat) : Bool :=
  !(decide ((97 ≤ c ∧ c ≤ 122) ∨ (65 ≤ c ∧ c ≤ 90) ∨ (48 ≤ c ∧ c ≤ 57))
    || (str "!$&'()*+,;=:[]<>\"").contains c || (str "-_.~").contains c)

/-- Go `url.unescape`: checks the escapes and decodes them, `none` for an
`EscapeError` or `InvalidHostError`. `'%'` is 37, `"25"` is 50 53, `' '` is 32. -/
def unescape (mode : Encoding) : Bytes → Option Bytes
  | [] => some []
  | c :: rest =>
    if c = 37 then
      match rest with
      | h1 :: h2 :: rest2 =>
        if ishex h1 && ishex h2 then
          if mode = .host ∧ unhex h1 < 8 ∧ ¬ (h1 = 50 ∧ h2 = 53) then none
          else if mode = .zone ∧ ¬ (h1 = 50 ∧ h2 = 53) ∧ (unhex h1 * 16 + unhex h2) ≠ 32
              ∧ shouldEscapeHost (unhex h1 * 16 + unhex h2) then none
          else (unescape mode rest2).map ((unhex h1 * 16 + unhex h2) :: ·)
        else none
      | _ => none
    else if (mode = .host ∨ mode = .zone) ∧ c < 128 ∧ shouldEscapeHost c then none
    else (unescape mode rest).map (c :: ·)

/-- Go `url.validOptionalPort`: empty, or a colon followed by digits only. -/
def validOptionalPort (port : Bytes) : Bool :=
  match port with
  | [] => true
  | c :: rest => c == 58 && rest.all (fun b => decide (48 ≤ b ∧ b ≤ 57))

/-- Go `url.validUserinfo`. -/
def validUserinfo (s : Bytes) : Bool :=
  s.all (fun r => decide ((65 ≤ r ∧ r ≤ 90) ∨ (97 ≤ r ∧ r ≤ 122) ∨ (48 ≤ r ∧ r ≤ 57))
    || (str "-._:~!$&'()*+,;=%@").contains r)

/-- Go `url.parseHost`. -/
def parseHost (host : Bytes) : Option Bytes :=
  if startsWith host [91] then
    match LastIndexByte host 93 with
    | none => none
    | some i =>
      if !validOptionalPort (host.drop (i + 1)) then none
      else
        match Index (host.take i) (str "%25") with
        | some zone =>
          match unescape .host (host.take zone), unescape .zone ((host.take i).drop zone),
              unescape .host (host.drop i) with
          | some host1, some host2, some host3 => some (host1 ++ host2 ++ host3)
          | _, _, _ => none
        | none => unescape .host host
  else
    match LastIndexByte host 58 with
    | some i => if !validOptionalPort (host.drop i) then none else unescape .host host
    | none => unescape .host host

/-- Go `url.Userinfo`. -/
structure Userinfo where
  username : Bytes
  password : Bytes
  passwordSet : Bool
  deriving DecidableEq, Repr

/-- Go `url.parseAuthority`: the user information and the host. `'@'` is 64. -/
def parseAuthority (authority : Bytes) : Option (Option Userinfo × Bytes) :=
  match LastIndexByte authority 64 with
  | none => (parseHost authority).map (fun host => (none, host))
  | some i =>
    match parseHost (authority.drop (i + 1)) with
    | none => none
    | some host =>
      let userinfo := authority.take i
      if !validUserinfo userinfo then none
      else if !Contains userinfo [58] then
        (unescape .userPassword userinfo).map (fun u => (some ⟨u, [], false⟩, host))
      else
        match unescape .userPassword (Cut userinfo 58).1,
            unescape .userPassword (Cut userinfo 58).2 with
        | some username, some password => some (some ⟨username, password, true⟩, host)
        | _, _ => none

/-- The fields of Go `url.URL` that `parseSocks5Proxy` reads. -/
structure URL where
  Scheme : Bytes
  User : Option Userinfo
  Host : Bytes
  Path : Bytes
  deriving DecidableEq, Repr

/-- Go `url.parse(rawURL, false)`. `'?'` is 63, `'/'` is 47, `'*'` is 42. -/
def urlParseNoFragment (rawURL : Bytes) : Option URL :=
  if rawURL.any (fun b => decide (b < 32 ∨ b = 127)) then none
  else if rawURL = [42] then some ⟨[], none, [], [42]⟩
  else
    match getScheme rawURL rawURL 0 with
    | none => none
    | some (scheme, rest) =>
      let scheme := toLower scheme
      let rest :=
        if rest.getLast? = some 63 ∧ rest.count 63 = 1 then rest.dropLast else (Cut rest 63).1
      if !startsWith rest [47] ∧ scheme ≠ [] then some ⟨scheme, none, [], []⟩
      else if !startsWith rest [47] ∧ Contains (Cut rest 47).1 [58] then none
      else if (scheme ≠ [] ∨ !startsWith rest [47, 47, 47]) ∧ startsWith rest [47, 47] then
        let authority := rest.drop 2
        let split : Bytes × Bytes :=
          match IndexByte authority 47 with
          | some i => (authority.take i, authority.drop i)
          | none => (authority, [])
        match parseAuthority split.1 with
        | none => none
        | some (user, host) =>
          (unescape .path split.2).map (fun path => ⟨scheme, user, host, path⟩)
      else (unescape .path rest).map (fun path => ⟨scheme, none, [], path⟩)

/-- Go `url.Parse`: the fragment after the first `'#'` (35) is cut off and must
unescape. -/
def urlParse (rawURL : Bytes) : Option URL :=
  match urlParseNoFragment (Cut rawURL 35).1 with
  | none => none
  | some u =>
    if (Cut rawURL 35).2 = [] then some u
    else (unescape .fragment (Cut rawURL 35).2).map (fun _ => u)

/-! ## `client.go` -/

/-- Go `socks5ProxyConfig`. -/
structure socks5ProxyConfig where
  address : Bytes
  username : Bytes
  password : Bytes
  deriving DecidableEq, Repr

/-- The errors of `parseSocks5Proxy`. -/
inductive ConfigErr where
  /-- The error of `url.Parse`. -/
  | urlParse
  /-- Message "yookassa: unsupported proxy scheme " with the scheme. -/
  | unsupportedScheme (scheme : Bytes)
  /-- Message "yookassa: proxy address is empty". -/
  | addressEmpty
  /-- Message "yookassa: proxy address must include port". -/
  | mustIncludePort
  deriving DecidableEq, Repr

/-- Go `parseSocks5Proxy`. -/
def parseSocks5Proxy (raw : Bytes) : Except ConfigErr socks5ProxyConfig :=
  let normalized := if !Contains raw (str "://") then str "socks5://" ++ raw else raw
  match urlParse normalized with
  | none => .error .urlParse
  | some u =>
    if u.Scheme ≠ [] ∧ u.Scheme ≠ str "socks5" then .error (.unsupportedScheme u.Scheme)
    else
      let address := if u.Host = [] then u.Path else u.Host
      if address = [] then .error .addressEmpty
      else if !Contains address (str ":") then .error .mustIncludePort
      else
        match u.User with
        | some user => .ok ⟨address, user.username, user.password⟩
        | none => .ok ⟨address, [], []⟩

/-- Go `newSocks5Dialer` (the `net.Dialer` with its two 30-second settings is left
out, as in `socks5Dialer`). -/
def newSocks5Dialer (address username password : Bytes) : socks5Dialer :=
  ⟨address, username, password⟩

/-- The `http.Transport` that `SetSocks5Proxy` builds: its `DialContext` is the one of
`dialer`, `Proxy` is nil, durations are in seconds. -/
structure Transport where
  dialer : socks5Dialer
  ForceAttemptHTTP2 : Bool
  MaxIdleConns : Nat
  IdleConnTimeout : Nat
  TLSHandshakeTimeout : Nat
  ExpectContinueTimeout : Nat
  deriving Repr, DecidableEq

/-- Go `Client`: `transport` is `client.Transport`, `none` for nil. -/
structure Client where
  transport : Option Transport
  accountId : Bytes
  secretKey : Bytes
  deriving Repr, DecidableEq

/-- Go `Client.SetSocks5Proxy` (lines 77-101): the error returned (`none` for nil) and
the client afterwards. -/
def Client.SetSocks5Proxy (c : Client) (proxyAddr : Bytes) : Option ConfigErr × Client :=
  if proxyAddr = [] then (none, { c with transport := none })
  else
    match parseSocks5Proxy proxyAddr with
    | .error e => (some e, c)
    | .ok cfg =>
      let dialer := newSocks5Dialer cfg.address cfg.username cfg.password
      let transport : Transport := ⟨dialer, true, 100, 90, 10, 1⟩
      (none, { c with transport := some transport })

/-! ## Vocabulary of the statements -/

/-- The destination `target` splits into `host` and a decimal port `port` that lies
in 1..65535, so that `connect` passes lines 89-100. -/
def validTarget (target host : Bytes) (port : Nat) : Prop :=
  ∃ portStr, SplitHostPort target = some (host, portStr) ∧ Atoi portStr = some (port : Int)
    ∧ 1 ≤ port ∧ port ≤ 65535

/-- The dialer holds credentials that `connect` offers: a non-empty username, and
username and password both shorter than 256 bytes. -/
def usableCredentials (d : socks5Dialer) : Prop :=
  0 < d.username.length ∧ d.username.length < 256 ∧ d.password.length < 256

instance (d : socks5Dialer) : Decidable (usableCredentials d) := by
  unfold usableCredentials; infer_instance

/-- The greeting for the dialer `d`. -/
def greetingOf (d : socks5Dialer) : Bytes :=
  if usableCredentials d then [5, 2, 0, 2] else [5, 1, 0]

/-- The username/password request for the dialer `d`. -/
def authenticationOf (d : socks5Dialer) : Bytes :=
  [1, d.username.length % 256] ++ d.username ++ [d.password.length % 256] ++ d.password

/-- Replies of the proxy that take the handshake to the CONNECT request: a greeting
reply `05 m` choosing a method `m` other than `ff` and `02`, or the greeting reply
`05 02` followed by an authentication reply `v 00` when `d` has usable credentials. -/
inductive Accepted (d : socks5Dialer) : Bytes → Prop where
  | direct (m : Nat) (hff : m ≠ 0xff) (hpw : m ≠ 2) : Accepted d [5, m]
  | password (v : Nat) (hcred : usableCredentials d) : Accepted d [5, 2, v, 0]

/-- What `connect` writes while the proxy sends the accepted replies `pre`: the
greeting, and the authentication request when `pre` holds an authentication reply. -/
def negotiation (d : socks5Dialer) (pre : Bytes) : List Bytes :=
  if pre.length = 2 then [greetingOf d] else [greetingOf d, authenticationOf d]

/-- The address field of the CONNECT request for `host` (lines 147-161): the type
tag and the address bytes, `none` when the host name is too long. -/
def addressField (host : Bytes) : Option Bytes :=
  if To4 (ParseIP host) ≠ [] then some (socks5IP4 :: To4 (ParseIP host))
  else if To16 (ParseIP host) ≠ [] then some (socks5IP6 :: To16 (ParseIP host))
  else if host.length > 255 then none
  else some (socks5Domain :: host.length % 256 :: host)

/-- Decimal text of an octet, without leading zeros (Go `ubtoa`). -/
def decimal (n : Nat) : Bytes :=
  if n < 10 then [48 + n]
  else if n < 100 then [48 + n / 10, 48 + n % 10]
  else [48 + n / 100, 48 + n / 10 % 10, 48 + n % 10]

/-- Dotted-decimal text of the IPv4 address `a.b.c.d` (what Go `IP.String` renders). -/
def dottedDecimal (a b c d : Nat) : Bytes :=
  decimal a ++ [46] ++ decimal b ++ [46] ++ decimal c ++ [46] ++ decimal d

/-- Text of the octets `fields`, each followed by a dot. -/
def dotPrefix (fields : List Nat) : Bytes :=
  (fields.map (fun x => decimal x ++ [46])).flatten

/-- The outcomes that lines 145-198 of `connect` (the CONNECT request and its reply)
can produce: success, a panic, or one of the errors returned there. -/
def requestOutcome : Result → Prop
  | .ok => True
  | .panic => True
  | .error (.hostNameTooLong _) => True
  | .error .writeConnect => True
  | .error .readConnectReply => True
  | .error (.failedToConnect _) => True
  | .error .readDomainLength => True
  | .error (.unknownAddressType _) => True
  | .error .readAddress => True
  | .error .readPort => True
  | .error _ => False

/-! ## Facts about slices and reads -/

namespace Slice

@[simp] theorem make_data (c : Nat) : (make c).data = [] := rfl

@[simp] theorem make_cap (c : Nat) : (make c).cap = c := by simp [make, cap]

@[simp] theorem append_data (grow : Nat → Nat → Nat) (s : Slice) (xs : Bytes) :
    (s.append grow xs).data = s.data ++ xs := by
  unfold append; split <;> rfl

theorem cap_le_append (grow : Nat → Nat → Nat) (s : Slice) (xs : Bytes) :
    s.cap ≤ (s.append grow xs).cap := by
  unfold append cap len
  split <;> simp <;> omega

theorem append_cap_of_fits (grow : Nat → Nat → Nat) (s : Slice) (xs : Bytes)
    (h : s.data.length + xs.length ≤ s.cap) : (s.append grow xs).cap = s.cap := by
  unfold append cap at *
  have h2 : xs.length ≤ s.spare.length := by omega
  simp [h2]; omega

theorem data_le_cap (s : Slice) : s.data.length ≤ s.cap := by
  unfold cap; omega

@[simp] theorem upto_zero (s : Slice) : s.upto 0 = some ⟨[], s.data ++ s.spare⟩ := by
  simp [upto]

theorem upto_of_le (s : Slice) (n : Nat) (h : n ≤ s.cap) :
    ∃ b, s.upto n = some b ∧ b.data.length = n ∧ b.cap = s.cap := by
  refine ⟨⟨(s.data ++ s.spare).take n, (s.data ++ s.spare).drop n⟩, by simp [upto, h], ?_, ?_⟩
  · simp [cap] at *; omega
  · simp [cap] at *; omega

theorem upto_of_lt (s : Slice) (n : Nat) (h : s.cap < n) : s.upto n = none := by
  simp [upto]; omega

theorem fill_cap (s : Slice) (bytes : Bytes) (h : bytes.length ≤ s.cap) :
    (s.fill bytes).cap = s.cap := by
  simp [fill, cap] at *; omega

theorem fill_length (s : Slice) (bytes : Bytes) (h : bytes.length ≤ s.cap) :
    (s.fill bytes).data.length = s.data.length := by
  simp [fill, cap] at *; omega

theorem fill_index (s : Slice) (bytes : Bytes) (i : Nat) (hi : i < bytes.length)
    (hl : i < s.data.length) : (s.fill bytes).index i = bytes.get? i := by
  simp [fill, index, List.getElem?_take, hl, List.getElem?_append_left hi]

end Slice

theorem ReadFull_done (conn : Conn) (buf : Slice) (bytes rest : Bytes)
    (hin : conn.incoming = bytes ++ rest) (hcap : bytes.length ≤ buf.cap) :
    ReadFull conn buf bytes.length
      = .done (buf.fill bytes) { conn with incoming := rest } := by
  obtain ⟨b, hb, -, -⟩ := buf.upto_of_le _ hcap
  simp [ReadFull, hb, hin]

theorem ReadFull_short (conn : Conn) (buf : Slice) (n : Nat)
    (hin : conn.incoming.length < n) (hcap : n ≤ buf.cap) :
    ReadFull conn buf n = .short { conn with incoming := [] } := by
  obtain ⟨b, hb, -, -⟩ := buf.upto_of_le _ hcap
  simp [ReadFull, hb]; omega

theorem ReadFull_panic (conn : Conn) (buf : Slice) (n : Nat) (hcap : buf.cap < n) :
    ReadFull conn buf n = .panic := by
  simp [ReadFull, buf.upto_of_lt n hcap]

/-! ## Facts about the address parsers -/

theorem parseIPv4Loop_length (s : Bytes) :
    ∀ (prev : Option Nat) (fields : List Nat) (val digLen : Nat) (out : List Nat) (v : Nat),
      fields.length ≤ 3 → parseIPv4Loop prev fields val digLen s = some (out, v) →
      out.length ≤ 3 := by
  induction s with
  | nil =>
    intro prev fields val digLen out v hf h
    simp [parseIPv4Loop] at h
    rw [← h.1]; exact hf
  | cons c rest ih =>
    intro prev fields val digLen out v hf h
    rw [parseIPv4Loop] at h
    split at h
    · split at h
      · simp at h
      · split at h
        · simp at h
        · exact ih _ _ _ _ _ _ hf h
    · split at h
      · split at h
        · simp at h
        · split at h
          · simp at h
          · exact ih _ _ _ _ _ _ (by simp; omega) h
      · simp at h

theorem parseIPv4Fields_length (s f : Bytes) (h : parseIPv4Fields s = some f) : f.length = 4 := by
  unfold parseIPv4Fields at h
  split at h
  · simp at h
  · rename_i fields val hl
    have := parseIPv4Loop_length s none [] 0 0 fields val (by simp) hl
    split at h
    · simp at h
    · simp at h; rw [← h]; simp; omega

theorem parseIPv6Loop_length (fuel : Nat) :
    ∀ (ip : Bytes) (ellipsis : Option Nat) (s out : Bytes) (e : Option Nat) (rest : Bytes),
      ip.length % 2 = 0 → ip.length ≤ 16 →
      parseIPv6Loop fuel ip ellipsis s = some (out, e, rest) →
      out.length % 2 = 0 ∧ out.length ≤ 16 := by
  induction fuel with
  | zero =>
    intro ip ellipsis s out e rest h2 h16 h
    simp [parseIPv6Loop] at h
    rw [← h.1]; exact ⟨h2, h16⟩
  | succ fuel ih =>
    intro ip ellipsis s out e rest h2 h16 h
    rw [parseIPv6Loop] at h
    split at h
    · simp at h; rw [← h.1]; exact ⟨h2, h16⟩
    · split at h
      · simp at h
      · rename_i off acc rest2 hscan
        have hlen2 : (ip ++ [acc / 256 % 256, acc % 256]).length % 2 = 0 ∧
            (ip ++ [acc / 256 % 256, acc % 256]).length ≤ 16 := by
          simp; omega
        split at h
        · simp at h
        · split at h
          · split at h
            · simp at h
            · split at h
              · simp at h
              · split at h
                · simp at h
                · rename_i fields hf
                  have := parseIPv4Fields_length _ _ hf
                  simp at h
                  rw [← h.1]; simp; omega
          · simp only at h
            split at h
            · simp at h; rw [← h.1]; exact hlen2
            · split at h
              · simp at h
              · split at h
                · simp at h
                · split at h
                  · split at h
                    · simp at h
                    · split at h
                      · simp at h; rw [← h.1]; exact hlen2
                      · exact ih _ _ _ _ _ _ hlen2.1 hlen2.2 h
                  · exact ih _ _ _ _ _ _ hlen2.1 hlen2.2 h

theorem expandEllipsis_length (ell : Option Nat) (s zone0 ip zone : Bytes)
    (h : expandEllipsis (parseIPv6Loop 8 [] ell s) zone0 = some (ip, zone)) :
    ip.length = 16 := by
  unfold expandEllipsis at h
  split at h
  · simp at h
  · rename_i out e rest hl
    have := parseIPv6Loop_length 8 [] _ _ out e rest (by simp) (by simp) hl
    split at h
    · simp at h
    · split at h
      · split at h
        · simp at h
        · simp at h; rw [← h.1]; simp; omega
      · split at h
        · simp at h
        · simp at h; rw [← h.1]; omega

theorem parseIPv6_length (s ip zone : Bytes) (h : parseIPv6 s = some (ip, zone)) :
    ip.length = 16 := by
  unfold parseIPv6 at h
  split at h
  · simp at h
  · split at h
    · split at h
      · simp at h; rw [← h.1]; simp
      · exact expandEllipsis_length _ _ _ ip zone h
    · exact expandEllipsis_length _ _ _ ip zone h

theorem parseAddr_length (s : Bytes) :
    ∀ (t ip zone : Bytes), parseAddr s t = some (ip, zone) → ip.length = 16 := by
  intro t
  induction t with
  | nil => intro ip zone h; simp [parseAddr] at h
  | cons c rest ih =>
    intro ip zone h
    rw [parseAddr] at h
    split at h
    · cases hf : parseIPv4Fields s with
      | none => simp [hf] at h
      | some f =>
        have := parseIPv4Fields_length s f hf
        simp [hf] at h
        rw [← h.1]; simp [v4InV6]; omega
    · split at h
      · exact parseIPv6_length s ip zone h
      · split at h
        · simp at h
        · exact ih ip zone h

theorem ParseIP_length (s : Bytes) : ParseIP s = [] ∨ (ParseIP s).length = 16 := by
  unfold ParseIP
  split
  · left; rfl
  · rename_i ip zone h
    split
    · right; exact parseAddr_length s s ip zone h
    · left; rfl

theorem parseIPv4Loop_decimal (a : Nat) (ha : a < 256) (prev : Option Nat) (fields : List Nat)
    (rest : Bytes) :
    parseIPv4Loop prev fields 0 0 (decimal a ++ rest)
      = parseIPv4Loop (some (48 + a % 10)) fields a (decimal a).length rest := by
  unfold decimal
  by_cases h1 : a < 10
  · have e : a % 10 = a := Nat.mod_eq_of_lt h1
    have hd : 48 ≤ 48 + a ∧ 48 + a ≤ 57 := by omega
    simp [h1, parseIPv4Loop, hd, e]
    omega
  · by_cases h2 : a < 100
    · have hd1 : 48 ≤ 48 + a / 10 ∧ 48 + a / 10 ≤ 57 := by omega
      have hd2 : 48 ≤ 48 + a % 10 ∧ 48 + a % 10 ≤ 57 := by omega
      have hv1 : ¬ (255 < a / 10) := by omega
      have hz : ¬ (a / 10 = 0) := by omega
      have hv2 : ¬ (255 < a / 10 * 10 + a % 10) := by omega
      have e : a / 10 * 10 + a % 10 = a := by omega
      have hv0 : ¬ (255 < a) := by omega
      simp [h1, h2, parseIPv4Loop, hd1, hd2, hv1, hz, hv2, e, hv0]
    · have hd1 : 48 ≤ 48 + a / 100 ∧ 48 + a / 100 ≤ 57 := by omega
      have hd2 : 48 ≤ 48 + a / 10 % 10 ∧ 48 + a / 10 % 10 ≤ 57 := by omega
      have hd3 : 48 ≤ 48 + a % 10 ∧ 48 + a % 10 ≤ 57 := by omega
      have hv1 : ¬ (255 < a / 100) := by omega
      have hz : ¬ (a / 100 = 0) := by omega
      have e2 : a / 100 * 10 + a / 10 % 10 = a / 10 := by omega
      have hv2 : ¬ (255 < a / 10) := by omega
      have e3 : a / 10 * 10 + a % 10 = a := by omega
      have hv3 : ¬ (255 < a) := by omega
      simp [h1, h2, parseIPv4Loop, hd1, hd2, hd3, hv1, hz, e2, hv2, e3, hv3]

theorem decimal_ne_nil (a : Nat) : decimal a ≠ [] := by
  unfold decimal; split
  · simp
  · split <;> simp

theorem parseIPv4Loop_dot (a : Nat) (fields : List Nat) (val digLen : Nat) (rest : Bytes)
    (hr : rest ≠ []) (hf : fields.length < 3) :
    parseIPv4Loop (some (48 + a)) fields val digLen (46 :: rest)
      = parseIPv4Loop (some 46) (fields ++ [val]) 0 0 rest := by
  have h3 : ¬ (fields.length = 3) := by omega
  have h46 : ¬ (48 + a = 46) := by omega
  simp [parseIPv4Loop, hr, h3, h46]

theorem parseIPv4Fields_dottedDecimal (a b c d : Nat) (ha : a < 256) (hb : b < 256)
    (hc : c < 256) (hd : d < 256) :
    parseIPv4Fields (dottedDecimal a b c d) = some [a, b, c, d] := by
  have e : dottedDecimal a b c d
      = decimal a ++ (46 :: (decimal b ++ (46 :: (decimal c ++ (46 :: (decimal d ++ [])))))) := by
    simp [dottedDecimal]
  have n1 : decimal b ++ (46 :: (decimal c ++ (46 :: (decimal d ++ [])))) ≠ [] := by
    have := decimal_ne_nil b; simp [this]
  have n2 : decimal c ++ (46 :: (decimal d ++ [])) ≠ [] := by
    have := decimal_ne_nil c; simp [this]
  have n3 : decimal d ++ ([] : Bytes) ≠ [] := by
    have := decimal_ne_nil d; simp [this]
  unfold parseIPv4Fields
  rw [e, parseIPv4Loop_decimal a ha, parseIPv4Loop_dot _ _ _ _ _ n1 (by simp),
    parseIPv4Loop_decimal b hb, parseIPv4Loop_dot _ _ _ _ _ n2 (by simp),
    parseIPv4Loop_decimal c hc, parseIPv4Loop_dot _ _ _ _ _ n3 (by simp),
    parseIPv4Loop_decimal d hd]
  simp [parseIPv4Loop]

theorem decimal_digits (a : Nat) (ha : a < 256) : ∀ x ∈ decimal a, 48 ≤ x ∧ x ≤ 57 := by
  intro x hx
  unfold decimal at hx
  split at hx
  · simp at hx; omega
  · split at hx
    · simp at hx; omega
    · simp at hx; omega

theorem parseAddr_digits (s : Bytes) (t rest : Bytes) (ht : ∀ x ∈ t, 48 ≤ x ∧ x ≤ 57) :
    parseAddr s (t ++ 46 :: rest) = (parseIPv4Fields s).map (fun f => (v4InV6 f, [])) := by
  induction t with
  | nil => simp [parseAddr]
  | cons c t ih =>
    have hc := ht c (by simp)
    have h1 : ¬ (c = 46) := by omega
    have h2 : ¬ (c = 58) := by omega
    have h3 : ¬ (c = 37) := by omega
    rw [List.cons_append, parseAddr, if_neg h1, if_neg h2, if_neg h3]
    exact ih (fun x hx => ht x (by simp [hx]))

theorem ParseIP_dottedDecimal (a b c d : Nat) (ha : a < 256) (hb : b < 256)
    (hc : c < 256) (hd : d < 256) :
    ParseIP (dottedDecimal a b c d) = v4InV6 [a, b, c, d] := by
  have e : dottedDecimal a b c d
      = decimal a ++ 46 :: (decimal b ++ [46] ++ decimal c ++ [46] ++ decimal d) := by
    simp [dottedDecimal]
  have hp := parseAddr_digits (dottedDecimal a b c d) (decimal a)
    (decimal b ++ [46] ++ decimal c ++ [46] ++ decimal d) (decimal_digits a ha)
  rw [← e, parseIPv4Fields_dottedDecimal a b c d ha hb hc hd] at hp
  simp [ParseIP, hp]

theorem decimal_snoc (val k : Nat) (hv : 1 ≤ val) (hk : k ≤ 9) (hs : val * 10 + k ≤ 255) :
    decimal (val * 10 + k) = decimal val ++ [48 + k] := by
  unfold decimal
  by_cases h1 : val < 10
  · have a1 : ¬ (val * 10 + k < 10) := by omega
    have a2 : val * 10 + k < 100 := by omega
    have e1 : (val * 10 + k) / 10 = val := by omega
    have e2 : (val * 10 + k) % 10 = k := by omega
    simp [h1, a1, a2, e1, e2]
  · have h2 : val < 100 := by omega
    have a1 : ¬ (val * 10 + k < 10) := by omega
    have a2 : ¬ (val * 10 + k < 100) := by omega
    have e1 : (val * 10 + k) / 100 = val / 10 := by omega
    have e2 : (val * 10 + k) / 10 % 10 = val % 10 := by omega
    have e3 : (val * 10 + k) % 10 = k := by omega
    simp [h1, h2, a1, a2, e1, e2, e3]

theorem dotPrefix_snoc (fields : List Nat) (val : Nat) :
    dotPrefix (fields ++ [val]) = dotPrefix fields ++ decimal val ++ [46] := by
  simp [dotPrefix]

theorem parseIPv4Loop_text (rest : Bytes) :
    ∀ (pre : Bytes) (prev : Option Nat) (fields : List Nat) (val digLen : Nat) (out : List Nat)
      (v : Nat), (∀ f ∈ fields, f < 256) → val < 256 →
      ((digLen = 0 ∧ val = 0 ∧ pre = dotPrefix fields ∧ (prev = none ∨ prev = some 46)) ∨
        (0 < digLen ∧ pre = dotPrefix fields ++ decimal val ∧ digLen = (decimal val).length ∧
          ∃ c, prev = some c ∧ 48 ≤ c ∧ c ≤ 57)) →
      parseIPv4Loop prev fields val digLen rest = some (out, v) →
      (rest = [] ∧ out = fields ∧ v = val) ∨
        (pre ++ rest = dotPrefix out ++ decimal v ∧ (∀ f ∈ out, f < 256) ∧ v < 256) := by
  induction rest with
  | nil =>
    intro pre prev fields val digLen out v _ _ _ h
    simp [parseIPv4Loop] at h
    exact Or.inl ⟨rfl, h.1.symm, h.2.symm⟩
  | cons c rest ih =>
    intro pre prev fields val digLen out v hf hval hinv h
    right
    rw [parseIPv4Loop] at h
    split at h
    · rename_i hdig
      split at h
      · simp at h
      · rename_i hz
        split at h
        · simp at h
        · rename_i hov
          have hk : c - 48 ≤ 9 := by omega
          have hc : 48 + (c - 48) = c := by omega
          have hnew : val * 10 + (c - 48) < 256 := by omega
          have hinv2 : (0 < digLen + 1 ∧ pre ++ [c] = dotPrefix fields ++
              decimal (val * 10 + (c - 48)) ∧ digLen + 1 = (decimal (val * 10 + (c - 48))).length ∧
              ∃ c2, some c = some c2 ∧ 48 ≤ c2 ∧ c2 ≤ 57) := by
            rcases hinv with ⟨hd0, hv0, hpre, -⟩ | ⟨hd, hpre, hlen, -⟩
            · subst hv0
              have e : decimal (0 * 10 + (c - 48)) = [c] := by
                have : c - 48 < 10 := by omega
                simp [decimal, this, hc]
              refine ⟨by omega, ?_, ?_, c, rfl, hdig.1, hdig.2⟩
              · rw [e, hpre]
              · rw [e, hd0]; rfl
            · have hv1 : 1 ≤ val := by
                by_contra hcon
                have hv0 : val = 0 := by omega
                subst hv0
                have : (decimal 0).length = 1 := by simp [decimal]
                exact hz ⟨by omega, rfl⟩
              have e := decimal_snoc val (c - 48) hv1 hk (by omega)
              rw [hc] at e
              refine ⟨by omega, ?_, ?_, c, rfl, hdig.1, hdig.2⟩
              · rw [e, hpre]; simp
              · rw [e, hlen]; simp
          rcases ih (pre ++ [c]) (some c) fields _ _ out v hf hnew (Or.inr hinv2) h with
            ⟨hr, ho, hv⟩ | ⟨htext, hb⟩
          · subst hr ho hv
            exact ⟨by simpa using hinv2.2.1, hf, hnew⟩
          · exact ⟨by simpa using htext, hb⟩
    · split at h
      · rename_i hdot
        split at h
        · simp at h
        · rename_i hcond
          split at h
          · simp at h
          · subst hdot
            have hrest : rest ≠ [] := fun e => hcond (Or.inr (Or.inl e))
            rcases hinv with ⟨-, -, -, hp⟩ | ⟨hd, hpre, hlen, -⟩
            · rcases hp with hp | hp
              · exact absurd (Or.inl hp) hcond
              · exact absurd (Or.inr (Or.inr hp)) hcond
            · have hf2 : ∀ f ∈ fields ++ [val], f < 256 := by
                intro f hfm
                rcases List.mem_append.1 hfm with h1 | h1
                · exact hf f h1
                · simp at h1; omega
              have hinv2 : (0 = 0 ∧ 0 = 0 ∧ pre ++ [46] = dotPrefix (fields ++ [val]) ∧
                  ((some 46 : Option Nat) = none ∨ (some 46 : Option Nat) = some 46)) :=
                ⟨rfl, rfl, by rw [dotPrefix_snoc, hpre], Or.inr rfl⟩
              rcases ih (pre ++ [46]) (some 46) (fields ++ [val]) 0 0 out v hf2 (by omega)
                (Or.inl hinv2) h with ⟨hr, -, -⟩ | ⟨htext, hb⟩
              · exact absurd hr hrest
              · exact ⟨by simpa using htext, hb⟩
      · simp at h

theorem parseIPv4Fields_text (s f : Bytes) (h : parseIPv4Fields s = some f) :
    ∃ a b c e, a < 256 ∧ b < 256 ∧ c < 256 ∧ e < 256 ∧ f = [a, b, c, e] ∧
      s = dottedDecimal a b c e := by
  unfold parseIPv4Fields at h
  split at h
  · simp at h
  · rename_i fields val hl
    have hlen := parseIPv4Loop_length s none [] 0 0 fields val (by simp) hl
    split at h
    · simp at h
    · rename_i h3
      simp at h
      have hfl : fields.length = 3 := by omega
      rcases parseIPv4Loop_text s [] none [] 0 0 fields val (by simp) (by omega)
        (Or.inl ⟨rfl, rfl, by simp [dotPrefix], Or.inl rfl⟩) hl with ⟨-, ho, -⟩ | ⟨htext, hb, hv⟩
      · rw [ho] at hfl; simp at hfl
      · match fields, hfl, hb, htext, h with
        | [a, b, c], _, hb, htext, h =>
          refine ⟨a, b, c, val, hb a (by simp), hb b (by simp), hb c (by simp), hv, ?_, ?_⟩
          · rw [← h]; rfl
          · simp at htext
            rw [htext]
            simp [dotPrefix, dottedDecimal]

/-! ## The stages of the handshake -/

theorem connectReply_header (conn : Conn) (buf : Slice) (v s r t : Nat) (rest : Bytes)
    (hlen : 4 ≤ buf.data.length) (hin : conn.incoming = v :: s :: r :: t :: rest) :
    ∃ b : Slice, b.cap = buf.cap ∧ b.data.length = buf.data.length ∧
      ReadFull conn buf 4 = .done b { conn with incoming := rest } ∧
      b.index 1 = some s ∧ b.index 3 = some t := by
  have hcap : ([v, s, r, t] : Bytes).length ≤ buf.cap := by
    have := buf.data_le_cap; simp; omega
  refine ⟨buf.fill [v, s, r, t], buf.fill_cap _ hcap, buf.fill_length _ hcap, ?_, ?_, ?_⟩
  · exact ReadFull_done conn buf [v, s, r, t] rest (by simpa using hin) hcap
  · rw [buf.fill_index _ 1 (by simp) (by omega)]; rfl
  · rw [buf.fill_index _ 3 (by simp) (by omega)]; rfl

theorem connectReply_failure (conn : Conn) (buf : Slice) (v s r t : Nat) (rest : Bytes)
    (hlen : 4 ≤ buf.data.length) (hin : conn.incoming = v :: s :: r :: t :: rest)
    (hs1 : 1 ≤ s) (hs8 : s ≤ 8) :
    connectReply conn buf
      = (.error (.failedToConnect (socks5Errors.getD s "")), { conn with incoming := rest }) := by
  obtain ⟨b, -, -, hread, h1, h3⟩ := connectReply_header conn buf v s r t rest hlen hin
  have hfail : s < socks5Errors.length ∧ socks5Errors.getD s "" ≠ "" := by
    interval_cases s <;> simp [socks5Errors]
  simp only [connectReply, hread, h1, h3]
  rw [if_pos hfail]

theorem ReadFull_two (conn : Conn) (buf : Slice) (a b : Nat) (rest : Bytes)
    (hin : conn.incoming = a :: b :: rest) (hlen : 2 ≤ buf.data.length) :
    ∃ b2 : Slice, b2.cap = buf.cap ∧ b2.data.length = buf.data.length ∧
      b2.index 0 = some a ∧ b2.index 1 = some b ∧
      ReadFull conn buf 2 = .done b2 { conn with incoming := rest } := by
  have hcap : ([a, b] : Bytes).length ≤ buf.cap := by
    have := buf.data_le_cap; simp; omega
  refine ⟨buf.fill [a, b], buf.fill_cap _ hcap, buf.fill_length _ hcap, ?_, ?_, ?_⟩
  · rw [buf.fill_index _ 0 (by simp) (by omega)]; rfl
  · rw [buf.fill_index _ 1 (by simp) (by omega)]; rfl
  · exact ReadFull_done conn buf [a, b] rest (by simpa using hin) hcap

theorem greeting_buffer (grow : Nat → Nat → Nat) (n : Nat) (g : Bytes) (hg : g.length ≤ 5) :
    (((Slice.make (6 + n)).append grow [socks5Version]).append grow g).cap = 6 + n := by
  have hc1 : ((Slice.make (6 + n)).append grow [socks5Version]).cap = 6 + n := by
    rw [Slice.append_cap_of_fits]
    · simp
    · simp; omega
  rw [Slice.append_cap_of_fits, hc1]
  rw [hc1]; simp; omega

theorem connect_greeting (grow : Nat → Nat → Nat) (d : socks5Dialer) (conn : Conn)
    (target host : Bytes) (port k a b : Nat) (rest : Bytes)
    (ht : validTarget target host port) (hw : conn.writeBudget = k + 1)
    (hin : conn.incoming = a :: b :: rest) :
    ∃ buf : Slice, buf.cap = 6 + host.length ∧ buf.index 0 = some a ∧ buf.index 1 = some b ∧
      connect grow d conn target =
        connectMethod grow d ⟨rest, conn.written ++ [greetingOf d], k⟩ buf host port := by
  obtain ⟨portStr, hs, ha, h1, h2⟩ := ht
  have hr : ¬ ((port : Int) < 1 ∨ (port : Int) > 0xffff) := by omega
  have key : ∀ g : Bytes, 2 ≤ g.length → g.length ≤ 5 →
      ∃ buf : Slice, buf.cap = 6 + host.length ∧ buf.index 0 = some a ∧ buf.index 1 = some b ∧
        ReadFull ⟨conn.incoming, conn.written ++ [socks5Version :: g], k⟩
            (((Slice.make (6 + host.length)).append grow [socks5Version]).append grow g) 2
          = .done buf ⟨rest, conn.written ++ [socks5Version :: g], k⟩ := by
    intro g hg2 hg5
    obtain ⟨b2, e1, -, e3, e4, e5⟩ := ReadFull_two
      ⟨conn.incoming, conn.written ++ [socks5Version :: g], k⟩
      (((Slice.make (6 + host.length)).append grow [socks5Version]).append grow g) a b rest hin
      (by simp; omega)
    exact ⟨b2, by rw [e1, greeting_buffer grow _ g hg5], e3, e4, e5⟩
  have hc' : usableCredentials d ↔
      (0 < d.username.length ∧ d.username.length < 256 ∧ d.password.length < 256) := Iff.rfl
  by_cases hc : usableCredentials d
  · obtain ⟨buf, h1, h2, h3, h4⟩ := key [2, socks5AuthNone, socks5AuthPassword] (by simp) (by simp)
    refine ⟨buf, h1, h2, h3, ?_⟩
    simp only [connect, hs, ha, if_neg hr, if_pos (hc'.1 hc), Conn.Write, hw, Slice.append_data,
      Slice.make_data, List.nil_append, Int.toNat_ofNat, List.singleton_append, h4]
    simp [greetingOf, hc, socks5Version, socks5AuthNone, socks5AuthPassword]
  · obtain ⟨buf, h1, h2, h3, h4⟩ := key [1, socks5AuthNone] (by simp) (by simp)
    refine ⟨buf, h1, h2, h3, ?_⟩
    simp only [connect, hs, ha, if_neg hr, if_neg (fun h => hc (hc'.2 h)), Conn.Write, hw,
      Slice.append_data, Slice.make_data, List.nil_append, Int.toNat_ofNat,
      List.singleton_append, h4]
    simp [greetingOf, hc, socks5Version, socks5AuthNone, socks5AuthPassword]

theorem connectMethod_direct (grow : Nat → Nat → Nat) (d : socks5Dialer) (conn : Conn)
    (buf : Slice) (host : Bytes) (port m : Nat) (h0 : buf.index 0 = some 5)
    (h1 : buf.index 1 = some m) (hff : m ≠ 0xff) (hpw : m ≠ 2) :
    connectMethod grow d conn buf host port = connectRequest grow conn buf host port := by
  simp [connectMethod, h0, h1, socks5Version, socks5AuthPassword, hff, hpw]

theorem connectMethod_password (grow : Nat → Nat → Nat) (d : socks5Dialer) (conn : Conn)
    (buf : Slice) (host : Bytes) (port k v : Nat) (rest : Bytes) (h0 : buf.index 0 = some 5)
    (h1 : buf.index 1 = some 2) (hcred : usableCredentials d)
    (hw : conn.writeBudget = k + 1) (hin : conn.incoming = v :: 0 :: rest) :
    ∃ b : Slice, buf.cap ≤ b.cap ∧
      connectMethod grow d conn buf host port =
        connectRequest grow ⟨rest, conn.written ++ [authenticationOf d], k⟩ b host port := by
  obtain ⟨hu0, hu, hp⟩ := hcred
  have hno : ¬ (d.username.length = 0 ∨ d.username.length ≥ 256 ∨ d.password.length ≥ 256) := by
    omega
  obtain ⟨b5, hb5⟩ : ∃ b5 : Slice, b5 = (((((⟨[], buf.data ++ buf.spare⟩ : Slice).append grow
      [1]).append grow [d.username.length % 256]).append grow d.username).append grow
      [d.password.length % 256]).append grow d.password := ⟨_, rfl⟩
  have hcap : buf.cap ≤ b5.cap := by
    have e0 : buf.cap ≤ (⟨[], buf.data ++ buf.spare⟩ : Slice).cap := by simp [Slice.cap]
    rw [hb5]
    exact le_trans (le_trans (le_trans (le_trans (le_trans e0 (Slice.cap_le_append _ _ _))
      (Slice.cap_le_append _ _ _)) (Slice.cap_le_append _ _ _)) (Slice.cap_le_append _ _ _))
      (Slice.cap_le_append _ _ _)
  have hdata : b5.data = authenticationOf d := by
    simp [hb5, authenticationOf]
  obtain ⟨b2, e1, -, -, e4, e5⟩ := ReadFull_two
    ⟨conn.incoming, conn.written ++ [authenticationOf d], k⟩ b5 v 0 rest hin
    (by rw [hdata]; simp [authenticationOf])
  refine ⟨b2, by omega, ?_⟩
  simp only [connectMethod, h0, h1, socks5Version, socks5AuthPassword, if_neg hno,
    Slice.upto_zero, Conn.Write, hw, ← hb5, hdata, e5, e4]
  simp

theorem Slice.append_track (grow : Nat → Nat → Nat) (c : Nat) (s : Slice) (xs : Bytes)
    (h : c ≤ s.cap ∧ (s.data.length ≤ c → s.cap = c)) :
    c ≤ (s.append grow xs).cap ∧
      ((s.append grow xs).data.length ≤ c → (s.append grow xs).cap = c) := by
  refine ⟨le_trans h.1 (s.cap_le_append grow xs), fun hl => ?_⟩
  simp only [Slice.append_data, List.length_append] at hl
  have hc := h.2 (by omega)
  rw [Slice.append_cap_of_fits grow s xs (by omega), hc]

theorem connectRequest_tooLong (grow : Nat → Nat → Nat) (conn : Conn) (buf : Slice)
    (host : Bytes) (port : Nat) (ha : addressField host = none) :
    connectRequest grow conn buf host port = (.error (.hostNameTooLong host), conn) := by
  unfold addressField at ha
  split at ha
  · simp at ha
  · split at ha
    · simp at ha
    · split at ha
      · simp [connectRequest, *]
      · simp at ha

theorem connectRequest_written (grow : Nat → Nat → Nat) (conn : Conn) (buf : Slice)
    (host addr : Bytes) (port k : Nat) (ha : addressField host = some addr)
    (hw : conn.writeBudget = k + 1) :
    ∃ b : Slice, b.data = [5, 1, 0] ++ addr ++ [port / 256 % 256, port % 256] ∧ buf.cap ≤ b.cap ∧
      (b.data.length ≤ buf.cap → b.cap = buf.cap) ∧
      connectRequest grow conn buf host port =
        connectReply ⟨conn.incoming, conn.written ++ [b.data], k⟩ b := by
  obtain ⟨b0, hb0⟩ : ∃ b0 : Slice, b0 = (⟨[], buf.data ++ buf.spare⟩ : Slice).append grow
      [socks5Version, socks5Connect, 0] := ⟨_, rfl⟩
  have t0 : buf.cap ≤ b0.cap ∧ (b0.data.length ≤ buf.cap → b0.cap = buf.cap) := by
    rw [hb0]
    exact Slice.append_track grow _ _ _ ⟨by simp [Slice.cap], fun _ => by simp [Slice.cap]⟩
  have d0 : b0.data = [5, 1, 0] := by simp [hb0, socks5Version, socks5Connect]
  unfold addressField at ha
  split at ha
  · rename_i h4
    have hadd : addr = socks5IP4 :: To4 (ParseIP host) := by simpa using ha.symm
    refine ⟨((b0.append grow [socks5IP4]).append grow (To4 (ParseIP host))).append grow
      [port / 256 % 256, port % 256], ?_, ?_, ?_, ?_⟩
    · simp [d0, hadd]
    · exact (Slice.append_track grow _ _ _ (Slice.append_track grow _ _ _
        (Slice.append_track grow _ _ _ t0))).1
    · exact (Slice.append_track grow _ _ _ (Slice.append_track grow _ _ _
        (Slice.append_track grow _ _ _ t0))).2
    · simp only [connectRequest, Slice.upto_zero, ← hb0, if_pos h4, Conn.Write, hw]
  · split at ha
    · rename_i h4 h6
      have hadd : addr = socks5IP6 :: To16 (ParseIP host) := by simpa using ha.symm
      refine ⟨((b0.append grow [socks5IP6]).append grow (To16 (ParseIP host))).append grow
        [port / 256 % 256, port % 256], ?_, ?_, ?_, ?_⟩
      · simp [d0, hadd]
      · exact (Slice.append_track grow _ _ _ (Slice.append_track grow _ _ _
          (Slice.append_track grow _ _ _ t0))).1
      · exact (Slice.append_track grow _ _ _ (Slice.append_track grow _ _ _
          (Slice.append_track grow _ _ _ t0))).2
      · simp only [connectRequest, Slice.upto_zero, ← hb0, if_neg h4, if_pos h6, Conn.Write, hw]
    · split at ha
      · simp at ha
      · rename_i h4 h6 hl
        have hadd : addr = socks5Domain :: host.length % 256 :: host := by simpa using ha.symm
        refine ⟨(((b0.append grow [socks5Domain]).append grow [host.length % 256]).append grow
          host).append grow [port / 256 % 256, port % 256], ?_, ?_, ?_, ?_⟩
        · simp [d0, hadd]
        · exact (Slice.append_track grow _ _ _ (Slice.append_track grow _ _ _
            (Slice.append_track grow _ _ _ (Slice.append_track grow _ _ _ t0)))).1
        · exact (Slice.append_track grow _ _ _ (Slice.append_track grow _ _ _
            (Slice.append_track grow _ _ _ (Slice.append_track grow _ _ _ t0)))).2
        · simp only [connectRequest, Slice.upto_zero, ← hb0, if_neg h4, if_neg h6, if_neg hl,
            Conn.Write, hw]

theorem connect_accepted (grow : Nat → Nat → Nat) (d : socks5Dialer) (conn : Conn)
    (target host : Bytes) (port k : Nat) (pre rest : Bytes)
    (ht : validTarget target host port) (hp : Accepted d pre)
    (hin : conn.incoming = pre ++ rest) (hw : conn.writeBudget = k + pre.length / 2) :
    ∃ buf : Slice, 6 + host.length ≤ buf.cap ∧ (pre.length = 2 → buf.cap = 6 + host.length) ∧
      connect grow d conn target =
        connectRequest grow ⟨rest, conn.written ++ negotiation d pre, k⟩ buf host port := by
  cases hp with
  | direct m hff hpw =>
    obtain ⟨buf, hc, h0, h1, he⟩ := connect_greeting grow d conn target host port k 5 m rest ht
      (by simpa using hw) (by simpa using hin)
    refine ⟨buf, by omega, fun _ => hc, ?_⟩
    rw [he, connectMethod_direct grow d _ buf host port m h0 h1 hff hpw]
    simp [negotiation]
  | password v hcred =>
    obtain ⟨buf, hc, h0, h1, he⟩ := connect_greeting grow d conn target host port (k + 1) 5 2
      (v :: 0 :: rest) ht (by simpa using hw) (by simpa using hin)
    obtain ⟨b, hb, he2⟩ := connectMethod_password grow d
      ⟨v :: 0 :: rest, conn.written ++ [greetingOf d], k + 1⟩ buf host port k v rest h0 h1 hcred
      rfl rfl
    refine ⟨b, by omega, fun h => by simp at h, ?_⟩
    rw [he, he2]
    simp [negotiation]

theorem To16_ne_nil (ip : Bytes) (h : ip.length = 16) : To16 ip = ip := by
  simp [To16, h]

theorem addressField_some (host : Bytes) (h : ParseIP host ≠ [] ∨ host.length ≤ 255) :
    ∃ addr, addressField host = some addr := by
  unfold addressField
  split
  · exact ⟨_, rfl⟩
  · split
    · exact ⟨_, rfl⟩
    · rename_i h4 h6
      split
      · rename_i hl
        rcases h with h | h
        · rcases ParseIP_length host with e | e
          · exact absurd e h
          · rw [To16_ne_nil _ e] at h6
            simp at h6
            exact absurd h6 h
        · omega
      · exact ⟨_, rfl⟩

theorem ReadFull_conn (conn : Conn) (buf : Slice) (n : Nat) :
    (∀ c, ReadFull conn buf n = .short c → c.written = conn.written ∧ c.writeBudget = conn.writeBudget
        ∧ c.incoming = []) ∧
    (∀ b c, ReadFull conn buf n = .done b c → c.written = conn.written
        ∧ c.writeBudget = conn.writeBudget ∧ n ≤ buf.cap
        ∧ b = buf.fill (conn.incoming.take n) ∧ n ≤ conn.incoming.length
        ∧ c.incoming = conn.incoming.drop n) := by
  unfold ReadFull
  constructor
  · intro c h
    split at h
    · simp at h
    · split at h
      · simp at h
      · simp at h; rw [← h]; simp
  · intro b c h
    split at h
    · simp at h
    · rename_i b0 hb
      have hcap : n ≤ buf.cap := by
        by_contra hc
        rw [Slice.upto_of_lt buf n (by omega)] at hb
        simp at hb
      split at h
      · rename_i hn
        simp at h; rw [← h.2, ← h.1]; simp [hcap, hn]
      · simp at h

theorem connectBound_written (conn : Conn) (buf : Option Slice) :
    (connectBound conn buf).2.written = conn.written ∧
      (connectBound conn buf).2.writeBudget = conn.writeBudget := by
  unfold connectBound
  split
  · simp
  · rename_i b
    split
    · simp
    · rename_i c1 h1
      have := (ReadFull_conn conn b b.len).1 c1 h1
      simp [this]
    · rename_i b1 c1 h1
      have e1 := (ReadFull_conn conn b b.len).2 b1 c1 h1
      split
      · simp [e1]
      · rename_i c2 h2
        have := (ReadFull_conn c1 b1 2).1 c2 h2
        simp [this, e1]
      · rename_i b2 c2 h2
        have := (ReadFull_conn c1 b1 2).2 b2 c2 h2
        simp [this, e1]

theorem connectReply_written (conn : Conn) (buf : Slice) :
    (connectReply conn buf).2.written = conn.written ∧
      (connectReply conn buf).2.writeBudget = conn.writeBudget := by
  unfold connectReply
  split
  · simp
  · rename_i c1 h1
    have := (ReadFull_conn conn buf 4).1 c1 h1
    simp [this]
  · rename_i b1 c1 h1
    have e1 := (ReadFull_conn conn buf 4).2 b1 c1 h1
    split
    · exact ⟨e1.1, e1.2.1⟩
    · split
      · exact ⟨e1.1, e1.2.1⟩
      · split
        · exact ⟨e1.1, e1.2.1⟩
        · split
          · have := connectBound_written c1 (b1.upto 4)
            exact ⟨this.1.trans e1.1, this.2.trans e1.2.1⟩
          · split
            · have := connectBound_written c1 (b1.upto 16)
              exact ⟨this.1.trans e1.1, this.2.trans e1.2.1⟩
            · split
              · split
                · exact ⟨e1.1, e1.2.1⟩
                · rename_i c2 h2
                  have := (ReadFull_conn c1 b1 1).1 c2 h2
                  exact ⟨this.1.trans e1.1, this.2.1.trans e1.2.1⟩
                · rename_i b2 c2 h2
                  have e2 := (ReadFull_conn c1 b1 1).2 b2 c2 h2
                  split
                  · exact ⟨e2.1.trans e1.1, e2.2.1.trans e1.2.1⟩
                  · rename_i l hl
                    have := connectBound_written c2 (b2.upto l)
                    exact ⟨(this.1.trans e2.1).trans e1.1, (this.2.trans e2.2.1).trans e1.2.1⟩
              · exact ⟨e1.1, e1.2.1⟩

theorem connect_to_reply (grow : Nat → Nat → Nat) (d : socks5Dialer) (conn : Conn)
    (target host : Bytes) (port : Nat) (pre reply : Bytes)
    (ht : validTarget target host port) (hp : Accepted d pre)
    (hhost : ParseIP host ≠ [] ∨ host.length ≤ 255)
    (hin : conn.incoming = pre ++ reply) (hw : 3 ≤ conn.writeBudget) :
    ∃ (addr : Bytes) (b : Slice), addressField host = some addr ∧
      b.data = [5, 1, 0] ++ addr ++ [port / 256 % 256, port % 256] ∧
      6 + host.length ≤ b.cap ∧
      (pre.length = 2 → b.data.length ≤ 6 + host.length → b.cap = 6 + host.length) ∧
      connect grow d conn target =
        connectReply ⟨reply, conn.written ++ negotiation d pre ++ [b.data],
          conn.writeBudget - pre.length / 2 - 1⟩ b := by
  have hpl : pre.length / 2 ≤ 2 := by cases hp <;> simp
  obtain ⟨addr, ha⟩ := addressField_some host hhost
  obtain ⟨buf, hc1, hc2, he⟩ := connect_accepted grow d conn target host port
    (conn.writeBudget - pre.length / 2) pre reply ht hp hin (by omega)
  obtain ⟨b, hd, hcap, hfit, he2⟩ := connectRequest_written grow
    ⟨reply, conn.written ++ negotiation d pre, conn.writeBudget - pre.length / 2⟩ buf host addr
    port (conn.writeBudget - pre.length / 2 - 1) ha (by simp; omega)
  refine ⟨addr, b, ha, hd, by omega, ?_, ?_⟩
  · intro h2 hl
    rw [hfit (by rw [hc2 h2]; exact hl), hc2 h2]
  · rw [he, he2]

theorem connectBound_ok (conn : Conn) (b : Slice) (addr p tail : Bytes)
    (hin : conn.incoming = addr ++ p ++ tail) (ha : addr.length = b.data.length)
    (hp : p.length = 2) (hcap : 2 ≤ b.cap) :
    connectBound conn (some b) = (.ok, { conn with incoming := tail }) := by
  have h1 := ReadFull_done conn b addr (p ++ tail) (by simpa using hin)
    (by rw [ha]; exact b.data_le_cap)
  have h2 := ReadFull_done { conn with incoming := p ++ tail } (b.fill addr) p tail rfl
    (by rw [Slice.fill_cap _ _ (by rw [ha]; exact b.data_le_cap)]; omega)
  rw [hp] at h2
  rw [ha] at h1
  simp only [connectBound, Slice.len, h1, h2]

theorem connectBound_ne_failed (conn : Conn) (buf : Option Slice) (reason : String) :
    (connectBound conn buf).1 ≠ .error (.failedToConnect reason) := by
  unfold connectBound
  split
  · simp
  · split
    · simp
    · simp
    · split <;> simp

theorem connectReply_pass (conn : Conn) (buf : Slice) (v s r t : Nat) (rest : Bytes)
    (hlen : 4 ≤ buf.data.length) (hin : conn.incoming = v :: s :: r :: t :: rest)
    (hs : s = 0 ∨ 9 ≤ s) :
    ∃ b : Slice, b.cap = buf.cap ∧ b.data.length = buf.data.length ∧
      connectReply conn buf =
        if t = socks5IP4 then connectBound { conn with incoming := rest } (b.upto 4)
        else if t = socks5IP6 then connectBound { conn with incoming := rest } (b.upto 16)
        else if t = socks5Domain then
          match ReadFull { conn with incoming := rest } b 1 with
          | .panic => (.panic, { conn with incoming := rest })
          | .short conn => (.error .readDomainLength, conn)
          | .done buf conn =>
            match buf.index 0 with
            | none => (.panic, conn)
            | some l => connectBound conn (buf.upto l)
        else (.error (.unknownAddressType t), { conn with incoming := rest }) := by
  obtain ⟨b, hc, hl, hread, h1, h3⟩ := connectReply_header conn buf v s r t rest hlen hin
  have hfail : ¬ (s < socks5Errors.length ∧ socks5Errors.getD s "" ≠ "") := by
    rcases hs with h | h
    · subst h; simp [socks5Errors]
    · simp [socks5Errors]; omega
  refine ⟨b, hc, hl, ?_⟩
  simp only [connectReply, hread, h1, h3]
  rw [if_neg hfail]

theorem To4_length (ip : Bytes) (h : To4 ip ≠ []) : (To4 ip).length = 4 := by
  unfold To4 at *
  split
  · assumption
  · rename_i h4
    rw [if_neg h4] at h
    split
    · rename_i h16
      simp [h16.1]
    · rename_i h16
      rw [if_neg h16] at h
      exact absurd rfl h

theorem connect_request_written (grow : Nat → Nat → Nat) (d : socks5Dialer) (conn : Conn)
    (target host : Bytes) (port : Nat) (pre reply addr : Bytes)
    (ht : validTarget target host port) (hp : Accepted d pre)
    (ha : addressField host = some addr)
    (hin : conn.incoming = pre ++ reply) (hw : 3 ≤ conn.writeBudget) :
    (connect grow d conn target).2.written
      = conn.written ++ negotiation d pre
          ++ [[5, 1, 0] ++ addr ++ [port / 256 % 256, port % 256]] := by
  have hhost : ParseIP host ≠ [] ∨ host.length ≤ 255 := by
    by_contra hcon
    have h1 : ParseIP host = [] := by
      by_contra h; exact hcon (Or.inl h)
    have h2 : 255 < host.length := by
      by_contra h; exact hcon (Or.inr (by omega))
    simp [addressField, h1, To4, To16, h2] at ha
  obtain ⟨addr2, b, ha2, hd, -, -, he⟩ := connect_to_reply grow d conn target host port pre reply
    ht hp hhost hin hw
  rw [ha] at ha2
  have : addr = addr2 := by simpa using ha2
  subst this
  rw [he, (connectReply_written _ b).1, hd]

theorem Slice.fill_index_some (s : Slice) (bytes : Bytes) (i x : Nat)
    (h : (s.fill bytes).index i = some x) (hi : i < bytes.length) : bytes.get? i = some x := by
  simp only [Slice.fill, Slice.index, List.get?_eq_getElem?, List.getElem?_take] at h
  split at h
  · rw [List.getElem?_append_left hi] at h
    simpa using h
  · simp at h

theorem Slice.upto_some (s b : Slice) (n : Nat) (h : s.upto n = some b) :
    b.data.length = n ∧ b.cap = s.cap := by
  unfold Slice.upto at h
  split at h
  · rename_i hn
    simp at h
    rw [← h]
    simp [Slice.cap] at *
    omega
  · simp at h

theorem connectBound_inv (conn : Conn) (buf : Option Slice) (c : Conn)
    (h : connectBound conn buf = (.ok, c)) :
    ∃ (b : Slice) (addr p : Bytes), buf = some b ∧ addr.length = b.data.length ∧ p.length = 2 ∧
      conn.incoming = addr ++ p ++ c.incoming := by
  unfold connectBound at h
  split at h
  · simp at h
  · rename_i b
    split at h
    · simp at h
    · simp at h
    · rename_i b1 c1 h1
      obtain ⟨-, -, -, -, hn1, hi1⟩ := (ReadFull_conn conn b b.len).2 b1 c1 h1
      split at h
      · simp at h
      · simp at h
      · rename_i b2 c2 h2
        obtain ⟨-, -, -, -, hn2, hi2⟩ := (ReadFull_conn c1 b1 2).2 b2 c2 h2
        simp at h
        subst h
        refine ⟨b, conn.incoming.take b.len, c1.incoming.take 2, rfl, ?_, ?_, ?_⟩
        · simp [Slice.len] at *; omega
        · simp; omega
        · rw [hi2, List.append_assoc, List.take_append_drop, hi1, List.take_append_drop]

theorem connectReply_inv (conn : Conn) (buf : Slice) (c : Conn)
    (h : connectReply conn buf = (.ok, c)) :
    ∃ (v s r t : Nat) (addr p : Bytes),
      conn.incoming = [v, s, r, t] ++ addr ++ p ++ c.incoming ∧ p.length = 2 ∧
      (t = 1 ∧ addr.length = 4 ∨ t = 4 ∧ addr.length = 16 ∨
        t = 3 ∧ ∃ (l : Nat) (body : Bytes), addr = l :: body ∧ body.length = l) := by
  unfold connectReply at h
  split at h
  · simp at h
  · simp at h
  · rename_i b1 c1 h1
    obtain ⟨-, -, -, hb1, hn1, hi1⟩ := (ReadFull_conn conn buf 4).2 b1 c1 h1
    obtain ⟨v, s, r, t, rest, hin⟩ : ∃ v s r t rest, conn.incoming = v :: s :: r :: t :: rest := by
      match hc : conn.incoming, hn1 with
      | v :: s :: r :: t :: rest, _ => exact ⟨v, s, r, t, rest, rfl⟩
    rw [hin] at hi1 hb1
    simp only [List.drop_succ_cons, List.drop_zero, List.take_succ_cons, List.take_zero] at hi1 hb1
    split at h
    · simp at h
    · split at h
      · simp at h
      · split at h
        · simp at h
        · rename_i atype ha
          rw [hb1] at ha
          have hat := Slice.fill_index_some buf [v, s, r, t] 3 atype ha (by simp)
          simp at hat
          subst hat
          split at h
          · rename_i h4
            obtain ⟨b, addr, p, hb, hal, hpl, hinc⟩ := connectBound_inv _ _ _ h
            obtain ⟨hl, -⟩ := Slice.upto_some _ _ _ hb
            refine ⟨v, s, r, t, addr, p, ?_, hpl, Or.inl ⟨h4, by omega⟩⟩
            rw [hin, ← hi1, hinc]; simp
          · split at h
            · rename_i h6
              obtain ⟨b, addr, p, hb, hal, hpl, hinc⟩ := connectBound_inv _ _ _ h
              obtain ⟨hl, -⟩ := Slice.upto_some _ _ _ hb
              refine ⟨v, s, r, t, addr, p, ?_, hpl, Or.inr (Or.inl ⟨h6, by omega⟩)⟩
              rw [hin, ← hi1, hinc]; simp
            · split at h
              · rename_i h3
                split at h
                · simp at h
                · simp at h
                · rename_i b2 c2 h2
                  obtain ⟨-, -, -, hb2, hn2, hi2⟩ := (ReadFull_conn c1 b1 1).2 b2 c2 h2
                  obtain ⟨l, rest2, hin2⟩ : ∃ l rest2, c1.incoming = l :: rest2 := by
                    match hc : c1.incoming, hn2 with
                    | l :: rest2, _ => exact ⟨l, rest2, rfl⟩
                  rw [hin2] at hi2 hb2
                  simp only [List.drop_succ_cons, List.drop_zero, List.take_succ_cons,
                    List.take_zero] at hi2 hb2
                  split at h
                  · simp at h
                  · rename_i l2 hl2
                    rw [hb2] at hl2
                    have hle := Slice.fill_index_some b1 [l] 0 l2 hl2 (by simp)
                    simp at hle
                    subst hle
                    obtain ⟨b, addr, p, hb, hal, hpl, hinc⟩ := connectBound_inv _ _ _ h
                    obtain ⟨hl, -⟩ := Slice.upto_some _ _ _ hb
                    refine ⟨v, s, r, t, l :: addr, p, ?_, hpl,
                      Or.inr (Or.inr ⟨h3, l, addr, rfl, by omega⟩)⟩
                    rw [hin, ← hi1, hin2, ← hi2, hinc]; simp
              · simp at h

theorem Conn.Write_some (conn c : Conn) (b : Bytes) (h : conn.Write b = some c) :
    c.incoming = conn.incoming := by
  unfold Conn.Write at h
  split at h
  · simp at h
  · simp at h; rw [← h]

theorem connectRequest_inv (grow : Nat → Nat → Nat) (conn : Conn) (buf : Slice)
    (host : Bytes) (port : Nat) (c : Conn)
    (h : connectRequest grow conn buf host port = (.ok, c)) :
    ∃ (c1 : Conn) (b : Slice), c1.incoming = conn.incoming ∧ connectReply c1 b = (.ok, c) := by
  unfold connectRequest at h
  simp only [Slice.upto_zero] at h
  split at h
  · simp at h
  · split at h
    · simp at h
    · rename_i c1 hw
      exact ⟨c1, _, Conn.Write_some _ _ _ hw, h⟩

theorem connectMethod_inv (grow : Nat → Nat → Nat) (d : socks5Dialer) (conn : Conn)
    (buf : Slice) (host : Bytes) (port : Nat) (c : Conn)
    (h : connectMethod grow d conn buf host port = (.ok, c)) :
    ∃ (m : Nat) (auth : Bytes) (c2 : Conn) (b2 : Slice), buf.index 0 = some 5 ∧
      buf.index 1 = some m ∧ conn.incoming = auth ++ c2.incoming ∧ (m = 2 → auth.length = 2) ∧
      (m ≠ 2 → auth = []) ∧ connectRequest grow c2 b2 host port = (.ok, c) := by
  unfold connectMethod at h
  split at h
  · simp at h
  · rename_i version h0
    split at h
    · simp at h
    · rename_i hv
      have hv5 : version = 5 := by simpa [socks5Version] using hv
      subst hv5
      split at h
      · simp at h
      · rename_i method h1
        split at h
        · simp at h
        · split at h
          · rename_i hm
            have hm2 : method = 2 := hm
            subst hm2
            split at h
            · simp at h
            · simp only [Slice.upto_zero] at h
              split at h
              · simp at h
              · rename_i c1 hw
                have hwi := Conn.Write_some _ _ _ hw
                split at h
                · simp at h
                · simp at h
                · rename_i b2 c2 hr
                  obtain ⟨-, -, -, -, hn, hi⟩ := (ReadFull_conn c1 _ 2).2 b2 c2 hr
                  split at h
                  · simp at h
                  · split at h
                    · simp at h
                    · refine ⟨2, c1.incoming.take 2, c2, b2, h0, h1, ?_, fun _ => ?_,
                        fun hne => absurd rfl hne, h⟩
                      · rw [hi, List.take_append_drop, hwi]
                      · simp; omega
          · rename_i hm
            exact ⟨method, [], conn, buf, h0, h1, rfl, fun h2 => absurd h2 hm, fun _ => rfl, h⟩

theorem connect_inv (grow : Nat → Nat → Nat) (d : socks5Dialer) (conn : Conn)
    (target : Bytes) (c : Conn) (h : connect grow d conn target = (.ok, c)) :
    ∃ (a b : Nat) (c1 : Conn) (buf : Slice) (host : Bytes) (port : Nat),
      conn.incoming = [a, b] ++ c1.incoming ∧
      (∀ x, buf.index 0 = some x → x = a) ∧ (∀ x, buf.index 1 = some x → x = b) ∧
      connectMethod grow d c1 buf host port = (.ok, c) := by
  unfold connect at h
  split at h
  · simp at h
  · rename_i host portStr hs
    split at h
    · simp at h
    · rename_i port ha
      split at h
      · simp at h
      · simp only at h
        split at h
        · simp at h
        · rename_i c0 hw
          have hwi := Conn.Write_some _ _ _ hw
          split at h
          · simp at h
          · simp at h
          · rename_i b1 c1 hr
            obtain ⟨-, -, -, hb, hn, hi⟩ := (ReadFull_conn c0 _ 2).2 b1 c1 hr
            obtain ⟨a, b, rest, hin⟩ : ∃ a b rest, c0.incoming = a :: b :: rest := by
              match hc : c0.incoming, hn with
              | a :: b :: rest, _ => exact ⟨a, b, rest, rfl⟩
            rw [hin] at hi hb
            simp only [List.drop_succ_cons, List.drop_zero, List.take_succ_cons,
              List.take_zero] at hi hb
            refine ⟨a, b, c1, b1, host, port.toNat, ?_, ?_, ?_, h⟩
            · rw [← hwi, hin, hi]; rfl
            · intro x hx
              rw [hb] at hx
              have := Slice.fill_index_some _ [a, b] 0 x hx (by simp)
              simpa using this.symm
            · intro x hx
              rw [hb] at hx
              have := Slice.fill_index_some _ [a, b] 1 x hx (by simp)
              simpa using this.symm

theorem connect_after_greeting (grow : Nat → Nat → Nat) (d : socks5Dialer) (conn : Conn)
    (target host : Bytes) (port k : Nat) (ht : validTarget target host port)
    (hw : conn.writeBudget = k + 1) :
    ∃ buf : Slice, buf.cap = 6 + host.length ∧ 3 ≤ buf.data.length ∧
      connect grow d conn target =
        match ReadFull ⟨conn.incoming, conn.written ++ [greetingOf d], k⟩ buf 2 with
        | .panic => (.panic, ⟨conn.incoming, conn.written ++ [greetingOf d], k⟩)
        | .short c => (.error .readGreeting, c)
        | .done b c => connectMethod grow d c b host port := by
  obtain ⟨portStr, hs, ha, h1, h2⟩ := ht
  have hr : ¬ ((port : Int) < 1 ∨ (port : Int) > 0xffff) := by omega
  have hc' : usableCredentials d ↔
      (0 < d.username.length ∧ d.username.length < 256 ∧ d.password.length < 256) := Iff.rfl
  by_cases hc : usableCredentials d
  · refine ⟨((Slice.make (6 + host.length)).append grow [socks5Version]).append grow
        [2, socks5AuthNone, socks5AuthPassword], greeting_buffer grow _ _ (by simp), by simp, ?_⟩
    simp only [connect, hs, ha, if_neg hr, if_pos (hc'.1 hc), Conn.Write, hw, Slice.append_data,
      Slice.make_data, List.nil_append, Int.toNat_ofNat, List.singleton_append]
    simp [greetingOf, hc, socks5Version, socks5AuthNone, socks5AuthPassword]
  · refine ⟨((Slice.make (6 + host.length)).append grow [socks5Version]).append grow
        [1, socks5AuthNone], greeting_buffer grow _ _ (by simp), by simp, ?_⟩
    simp only [connect, hs, ha, if_neg hr, if_neg (fun h => hc (hc'.2 h)), Conn.Write, hw,
      Slice.append_data, Slice.make_data, List.nil_append, Int.toNat_ofNat,
      List.singleton_append]
    simp [greetingOf, hc, socks5Version, socks5AuthNone, socks5AuthPassword]

theorem connectMethod_auth (grow : Nat → Nat → Nat) (d : socks5Dialer) (conn : Conn)
    (buf : Slice) (host : Bytes) (port k : Nat) (h0 : buf.index 0 = some 5)
    (h1 : buf.index 1 = some 2) (hcred : usableCredentials d)
    (hw : conn.writeBudget = k + 1) :
    ∃ b5 : Slice, b5.data = authenticationOf d ∧ buf.cap ≤ b5.cap ∧
      connectMethod grow d conn buf host port =
        match ReadFull ⟨conn.incoming, conn.written ++ [authenticationOf d], k⟩ b5 2 with
        | .panic => (.panic, ⟨conn.incoming, conn.written ++ [authenticationOf d], k⟩)
        | .short c => (.error .readAuthentication, c)
        | .done b c =>
          match b.index 1 with
          | none => (.panic, c)
          | some status =>
            if status ≠ 0 then (.error .rejectedUsernamePassword, c)
            else connectRequest grow c b host port := by
  obtain ⟨hu0, hu, hp⟩ := hcred
  have hno : ¬ (d.username.length = 0 ∨ d.username.length ≥ 256 ∨ d.password.length ≥ 256) := by
    omega
  obtain ⟨b5, hb5⟩ : ∃ b5 : Slice, b5 = (((((⟨[], buf.data ++ buf.spare⟩ : Slice).append grow
      [1]).append grow [d.username.length % 256]).append grow d.username).append grow
      [d.password.length % 256]).append grow d.password := ⟨_, rfl⟩
  have hcap : buf.cap ≤ b5.cap := by
    have e0 : buf.cap ≤ (⟨[], buf.data ++ buf.spare⟩ : Slice).cap := by simp [Slice.cap]
    rw [hb5]
    exact le_trans (le_trans (le_trans (le_trans (le_trans e0 (Slice.cap_le_append _ _ _))
      (Slice.cap_le_append _ _ _)) (Slice.cap_le_append _ _ _)) (Slice.cap_le_append _ _ _))
      (Slice.cap_le_append _ _ _)
  have hdata : b5.data = authenticationOf d := by
    simp [hb5, authenticationOf]
  refine ⟨b5, hdata, hcap, ?_⟩
  simp only [connectMethod, h0, h1, socks5Version, socks5AuthPassword, if_neg hno,
    Slice.upto_zero, Conn.Write, hw, ← hb5, hdata]
  simp

theorem connectBound_outcome (conn : Conn) (buf : Option Slice) :
    requestOutcome (connectBound conn buf).1 := by
  unfold connectBound
  split
  · trivial
  · split
    · trivial
    · trivial
    · split <;> trivial

theorem connectReply_outcome (conn : Conn) (buf : Slice) :
    requestOutcome (connectReply conn buf).1 := by
  unfold connectReply
  split
  · trivial
  · trivial
  · split
    · trivial
    · split
      · trivial
      · split
        · trivial
        · split
          · exact connectBound_outcome _ _
          · split
            · exact connectBound_outcome _ _
            · split
              · split
                · trivial
                · trivial
                · split
                  · trivial
                  · exact connectBound_outcome _ _
              · trivial

theorem connectRequest_outcome (grow : Nat → Nat → Nat) (conn : Conn) (buf : Slice)
    (host : Bytes) (port : Nat) : requestOutcome (connectRequest grow conn buf host port).1 := by
  unfold connectRequest
  simp only [Slice.upto_zero]
  split
  · trivial
  · split
    · trivial
    · exact connectReply_outcome _ _

theorem connectRequest_extends (grow : Nat → Nat → Nat) (conn : Conn) (buf : Slice)
    (host : Bytes) (port : Nat) :
    ∃ more, (connectRequest grow conn buf host port).2.written = conn.written ++ more := by
  unfold connectRequest
  simp only [Slice.upto_zero]
  split
  · exact ⟨[], by simp⟩
  · split
    · exact ⟨[], by simp⟩
    · rename_i c hw
      unfold Conn.Write at hw
      split at hw
      · simp at hw
      · simp at hw
        rw [(connectReply_written _ _).1, ← hw]
        exact ⟨_, rfl⟩

theorem connectMethod_extends (grow : Nat → Nat → Nat) (d : socks5Dialer) (conn : Conn)
    (buf : Slice) (host : Bytes) (port : Nat) :
    ∃ more, (connectMethod grow d conn buf host port).2.written = conn.written ++ more := by
  unfold connectMethod
  split
  · exact ⟨[], by simp⟩
  · split
    · exact ⟨[], by simp⟩
    · split
      · exact ⟨[], by simp⟩
      · split
        · exact ⟨[], by simp⟩
        · split
          · split
            · exact ⟨[], by simp⟩
            · simp only [Slice.upto_zero]
              split
              · exact ⟨[], by simp⟩
              · rename_i c hw
                obtain ⟨x, hcw⟩ : ∃ x, c.written = conn.written ++ [x] := by
                  unfold Conn.Write at hw
                  split at hw
                  · simp at hw
                  · simp at hw; rw [← hw]; exact ⟨_, rfl⟩
                split
                · exact ⟨[x], hcw⟩
                · rename_i c2 hr
                  have := (ReadFull_conn c _ 2).1 c2 hr
                  exact ⟨[x], by simp only [this.1, hcw]⟩
                · rename_i b2 c2 hr
                  have := (ReadFull_conn c _ 2).2 b2 c2 hr
                  split
                  · exact ⟨[x], by simp only [this.1, hcw]⟩
                  · split
                    · exact ⟨[x], by simp only [this.1, hcw]⟩
                    · obtain ⟨more, hm⟩ := connectRequest_extends grow c2 b2 host port
                      exact ⟨x :: more, by rw [hm, this.1, hcw]; simp⟩
          · exact connectRequest_extends grow conn buf host port

theorem greetingOf_plain (d : socks5Dialer) (h : ¬ usableCredentials d) :
    greetingOf d = [5, 1, 0] := by
  simp [greetingOf, h]

theorem greetingOf_password (d : socks5Dialer) (h : usableCredentials d) :
    greetingOf d = [5, 2, 0, 2] := by
  simp [greetingOf, h]

theorem authenticationOf_exact (d : socks5Dialer) (h : usableCredentials d) :
    authenticationOf d
      = [1, d.username.length] ++ d.username ++ [d.password.length] ++ d.password := by
  obtain ⟨-, hu, hp⟩ := h
  simp [authenticationOf, Nat.mod_eq_of_lt hu, Nat.mod_eq_of_lt hp]

theorem connectMethod_validated (grow : Nat → Nat → Nat) (d : socks5Dialer) (conn : Conn)
    (buf : Slice) (host : Bytes) (port m : Nat) (h0 : buf.index 0 = some 5)
    (h1 : buf.index 1 = some m) (hff : m ≠ 0xff) :
    (connectMethod grow d conn buf host port).1 ≠ .error .requiresAuthentication ∧
      ∀ v, (connectMethod grow d conn buf host port).1 ≠ .error (.unexpectedVersion v) := by
  have key : ∀ r : Result, requestOutcome r →
      r ≠ .error .requiresAuthentication ∧ ∀ v, r ≠ .error (.unexpectedVersion v) := by
    intro r hr
    constructor
    · intro e; rw [e] at hr; exact hr
    · intro v e; rw [e] at hr; exact hr
  simp only [connectMethod, h0, h1, socks5Version, ne_eq, not_true_eq_false, if_false, if_neg hff]
  split
  · split
    · simp
    · simp only [Slice.upto_zero]
      split
      · simp
      · split
        · simp
        · simp
        · split
          · simp
          · split
            · simp
            · exact key _ (connectRequest_outcome _ _ _ _ _)
  · exact key _ (connectRequest_outcome _ _ _ _ _)

theorem connect_greeting_uniform (grow : Nat → Nat → Nat) (d : socks5Dialer)
    (target host : Bytes) (port a b : Nat) (ht : validTarget target host port) :
    ∃ buf : Slice, buf.index 0 = some a ∧ buf.index 1 = some b ∧
      ∀ (conn : Conn) (k : Nat) (rest : Bytes), conn.writeBudget = k + 1 →
        conn.incoming = a :: b :: rest →
        connect grow d conn target =
          connectMethod grow d ⟨rest, conn.written ++ [greetingOf d], k⟩ buf host port := by
  obtain ⟨portStr, hs, ha, h1, h2⟩ := ht
  have hr : ¬ ((port : Int) < 1 ∨ (port : Int) > 0xffff) := by omega
  have key : ∀ g : Bytes, 2 ≤ g.length → g.length ≤ 5 →
      ∃ buf : Slice, buf.index 0 = some a ∧ buf.index 1 = some b ∧
        ∀ (conn : Conn) (k : Nat) (rest : Bytes), conn.incoming = a :: b :: rest →
          ReadFull ⟨conn.incoming, conn.written ++ [socks5Version :: g], k⟩
            (((Slice.make (6 + host.length)).append grow [socks5Version]).append grow g) 2
          = .done buf ⟨rest, conn.written ++ [socks5Version :: g], k⟩ := by
    intro g hg2 hg5
    have hcap : ([a, b] : Bytes).length ≤
        (((Slice.make (6 + host.length)).append grow [socks5Version]).append grow g).cap := by
      rw [greeting_buffer grow _ g hg5]; simp; omega
    refine ⟨Slice.fill (((Slice.make (6 + host.length)).append grow [socks5Version]).append
      grow g) [a, b], ?_, ?_, fun conn k rest hin => ?_⟩
    · rw [Slice.fill_index _ _ 0 (by simp) (by simp)]; rfl
    · rw [Slice.fill_index _ _ 1 (by simp) (by simp; omega)]; rfl
    · exact ReadFull_done ⟨conn.incoming, conn.written ++ [socks5Version :: g], k⟩ _ [a, b] rest
        (by simpa using hin) hcap
  have hc' : usableCredentials d ↔
      (0 < d.username.length ∧ d.username.length < 256 ∧ d.password.length < 256) := Iff.rfl
  by_cases hc : usableCredentials d
  · obtain ⟨buf, h2, h3, h4⟩ := key [2, socks5AuthNone, socks5AuthPassword] (by simp) (by simp)
    refine ⟨buf, h2, h3, fun conn k rest hw hin => ?_⟩
    simp only [connect, hs, ha, if_neg hr, if_pos (hc'.1 hc), Conn.Write, hw, Slice.append_data,
      Slice.make_data, List.nil_append, Int.toNat_ofNat, List.singleton_append,
      h4 conn k rest hin]
    simp [greetingOf, hc, socks5Version, socks5AuthNone, socks5AuthPassword]
  · obtain ⟨buf, h2, h3, h4⟩ := key [1, socks5AuthNone] (by simp) (by simp)
    refine ⟨buf, h2, h3, fun conn k rest hw hin => ?_⟩
    simp only [connect, hs, ha, if_neg hr, if_neg (fun h => hc (hc'.2 h)), Conn.Write, hw,
      Slice.append_data, Slice.make_data, List.nil_append, Int.toNat_ofNat,
      List.singleton_append, h4 conn k rest hin]
    simp [greetingOf, hc, socks5Version, socks5AuthNone, socks5AuthPassword]

theorem connectMethod_auth_uniform (grow : Nat → Nat → Nat) (d : socks5Dialer)
    (buf : Slice) (host : Bytes) (port : Nat) (h0 : buf.index 0 = some 5)
    (h1 : buf.index 1 = some 2) (hcred : usableCredentials d) :
    ∃ b5 : Slice, 3 ≤ b5.data.length ∧
      (∀ (conn : Conn) (k v st : Nat) (rest : Bytes), conn.writeBudget = k + 1 →
        conn.incoming = v :: st :: rest →
        connectMethod grow d conn buf host port =
          if st ≠ 0 then
            (.error .rejectedUsernamePassword, ⟨rest, conn.written ++ [authenticationOf d], k⟩)
          else connectRequest grow ⟨rest, conn.written ++ [authenticationOf d], k⟩
            (b5.fill [v, st]) host port) ∧
      (∀ (conn : Conn) (k : Nat), conn.writeBudget = k + 1 → conn.incoming.length < 2 →
        connectMethod grow d conn buf host port =
          (.error .readAuthentication, ⟨[], conn.written ++ [authenticationOf d], k⟩)) := by
  obtain ⟨hu0, hu, hp⟩ := hcred
  have hno : ¬ (d.username.length = 0 ∨ d.username.length ≥ 256 ∨ d.password.length ≥ 256) := by
    omega
  obtain ⟨b5, hb5⟩ : ∃ b5 : Slice, b5 = (((((⟨[], buf.data ++ buf.spare⟩ : Slice).append grow
      [1]).append grow [d.username.length % 256]).append grow d.username).append grow
      [d.password.length % 256]).append grow d.password := ⟨_, rfl⟩
  have hdata : b5.data = authenticationOf d := by
    simp [hb5, authenticationOf]
  have hlen : 3 ≤ b5.data.length := by
    rw [hdata]; simp [authenticationOf]; omega
  have hcap : 2 ≤ b5.cap := by
    have := b5.data_le_cap; omega
  refine ⟨b5, hlen, fun conn k v st rest hw hin => ?_, fun conn k hw hin => ?_⟩
  · have hread := ReadFull_done ⟨conn.incoming, conn.written ++ [authenticationOf d], k⟩ b5
      [v, st] rest (by simpa using hin) (by simpa using hcap)
    have hidx : (b5.fill [v, st]).index 1 = some st := by
      rw [Slice.fill_index _ _ 1 (by simp) (by omega)]; rfl
    simp only [List.length_cons, List.length_nil] at hread
    simp only [connectMethod, h0, h1, socks5Version, socks5AuthPassword, if_neg hno,
      Slice.upto_zero, Conn.Write, hw, ← hb5, hdata]
    simp [hread, hidx]
  · have hread := ReadFull_short ⟨conn.incoming, conn.written ++ [authenticationOf d], k⟩ b5 2
      (by simpa using hin) hcap
    simp only [connectMethod, h0, h1, socks5Version, socks5AuthPassword, if_neg hno,
      Slice.upto_zero, Conn.Write, hw, ← hb5, hdata]
    simp [hread]

theorem connectRequest_written_uniform (grow : Nat → Nat → Nat) (buf : Slice)
    (host addr : Bytes) (port : Nat) (ha : addressField host = some addr) :
    ∃ b : Slice, b.data = [5, 1, 0] ++ addr ++ [port / 256 % 256, port % 256] ∧
      ∀ (conn : Conn) (k : Nat), conn.writeBudget = k + 1 →
        connectRequest grow conn buf host port =
          connectReply ⟨conn.incoming, conn.written ++ [b.data], k⟩ b := by
  obtain ⟨b0, hb0⟩ : ∃ b0 : Slice, b0 = (⟨[], buf.data ++ buf.spare⟩ : Slice).append grow
      [socks5Version, socks5Connect, 0] := ⟨_, rfl⟩
  have d0 : b0.data = [5, 1, 0] := by simp [hb0, socks5Version, socks5Connect]
  unfold addressField at ha
  split at ha
  · rename_i h4
    have hadd : addr = socks5IP4 :: To4 (ParseIP host) := by simpa using ha.symm
    refine ⟨((b0.append grow [socks5IP4]).append grow (To4 (ParseIP host))).append grow
      [port / 256 % 256, port % 256], by simp [d0, hadd], fun conn k hw => ?_⟩
    simp only [connectRequest, Slice.upto_zero, ← hb0, if_pos h4, Conn.Write, hw]
  · split at ha
    · rename_i h4 h6
      have hadd : addr = socks5IP6 :: To16 (ParseIP host) := by simpa using ha.symm
      refine ⟨((b0.append grow [socks5IP6]).append grow (To16 (ParseIP host))).append grow
        [port / 256 % 256, port % 256], by simp [d0, hadd], fun conn k hw => ?_⟩
      simp only [connectRequest, Slice.upto_zero, ← hb0, if_neg h4, if_pos h6, Conn.Write, hw]
    · split at ha
      · simp at ha
      · rename_i h4 h6 hl
        have hadd : addr = socks5Domain :: host.length % 256 :: host := by simpa using ha.symm
        refine ⟨(((b0.append grow [socks5Domain]).append grow [host.length % 256]).append grow
          host).append grow [port / 256 % 256, port % 256], by simp [d0, hadd],
          fun conn k hw => ?_⟩
        simp only [connectRequest, Slice.upto_zero, ← hb0, if_neg h4, if_neg h6, if_neg hl,
          Conn.Write, hw]

theorem ReadFull_cases (conn : Conn) (buf : Slice) (n : Nat) :
    (buf.cap < n ∧ ReadFull conn buf n = .panic) ∨
    (n ≤ buf.cap ∧ conn.incoming.length < n ∧
      ReadFull conn buf n = .short { conn with incoming := [] }) ∨
    (n ≤ buf.cap ∧ n ≤ conn.incoming.length ∧
      ReadFull conn buf n = .done (buf.fill (conn.incoming.take n))
        { conn with incoming := conn.incoming.drop n }) := by
  by_cases hc : buf.cap < n
  · exact Or.inl ⟨hc, ReadFull_panic conn buf n hc⟩
  · by_cases hs : conn.incoming.length < n
    · exact Or.inr (Or.inl ⟨by omega, hs, ReadFull_short conn buf n hs (by omega)⟩)
    · refine Or.inr (Or.inr ⟨by omega, by omega, ?_⟩)
      have h := ReadFull_done conn buf (conn.incoming.take n) (conn.incoming.drop n)
        (List.take_append_drop n conn.incoming).symm (by simp; omega)
      have hl : (conn.incoming.take n).length = n := by simp; omega
      rw [hl] at h
      exact h

theorem connectBound_shape (conn : Conn) (b1 b2 : Slice)
    (hl : b1.data.length = b2.data.length) (hc : b1.cap = b2.cap) :
    connectBound conn (some b1) = connectBound conn (some b2) := by
  have step2 : ∀ (c : Conn) (x1 x2 : Slice), x1.cap = x2.cap →
      (match ReadFull c x1 2 with
        | .panic => (Result.panic, c)
        | .short c2 => (.error .readPort, c2)
        | .done _ c2 => (.ok, c2)) =
      (match ReadFull c x2 2 with
        | .panic => (Result.panic, c)
        | .short c2 => (.error .readPort, c2)
        | .done _ c2 => (.ok, c2)) := by
    intro c x1 x2 hx
    rcases ReadFull_cases c x1 2 with ⟨h1, e1⟩ | ⟨h1, h2, e1⟩ | ⟨h1, h2, e1⟩
    · rw [e1, ReadFull_panic c x2 2 (by omega)]
    · rw [e1, ReadFull_short c x2 2 h2 (by omega)]
    · rcases ReadFull_cases c x2 2 with ⟨h3, e2⟩ | ⟨h3, h4, e2⟩ | ⟨h3, h4, e2⟩
      · omega
      · omega
      · rw [e1, e2]
  unfold connectBound
  simp only [Slice.len]
  rw [← hl]
  rcases ReadFull_cases conn b1 b1.data.length with ⟨h1, e1⟩ | ⟨h1, h2, e1⟩ | ⟨h1, h2, e1⟩
  · rw [e1, ReadFull_panic conn b2 b1.data.length (by omega)]
  · rw [e1, ReadFull_short conn b2 b1.data.length h2 (by omega)]
  · rcases ReadFull_cases conn b2 b1.data.length with ⟨h3, e2⟩ | ⟨h3, h4, e2⟩ | ⟨h3, h4, e2⟩
    · omega
    · omega
    · rw [e1, e2]
      simp only
      apply step2
      rw [Slice.fill_cap _ _ (by simp; omega), Slice.fill_cap _ _ (by simp; omega), hc]

theorem connectBound_upto_shape (conn : Conn) (b1 b2 : Slice) (n : Nat) (hc : b1.cap = b2.cap) :
    connectBound conn (b1.upto n) = connectBound conn (b2.upto n) := by
  by_cases hn : n ≤ b1.cap
  · obtain ⟨x1, e1, l1, c1⟩ := b1.upto_of_le n hn
    obtain ⟨x2, e2, l2, c2⟩ := b2.upto_of_le n (by omega)
    rw [e1, e2]
    exact connectBound_shape conn x1 x2 (by omega) (by omega)
  · rw [b1.upto_of_lt n (by omega), b2.upto_of_lt n (by omega)]

theorem connectReply_ignores (buf : Slice) (rep : Bytes) (w : List Bytes) (k v' r' : Nat)
    (hlen : 4 ≤ buf.data.length) :
    connectReply ⟨rep, w, k⟩ buf = connectReply ⟨(rep.set 0 v').set 2 r', w, k⟩ buf := by
  have hcap4 : 4 ≤ buf.cap := by have := buf.data_le_cap; omega
  by_cases hshort : rep.length < 4
  · have e1 : ReadFull ⟨rep, w, k⟩ buf 4 = .short ⟨[], w, k⟩ :=
      ReadFull_short ⟨rep, w, k⟩ buf 4 hshort hcap4
    have e2 : ReadFull ⟨(rep.set 0 v').set 2 r', w, k⟩ buf 4 = .short ⟨[], w, k⟩ :=
      ReadFull_short ⟨(rep.set 0 v').set 2 r', w, k⟩ buf 4 (by simpa using hshort) hcap4
    simp only [connectReply, e1, e2]
  · obtain ⟨v, s, r, t, rest, rfl⟩ : ∃ v s r t rest, rep = v :: s :: r :: t :: rest := by
      match rep, hshort with
      | v :: s :: r :: t :: rest, _ => exact ⟨v, s, r, t, rest, rfl⟩
      | [], h => simp at h
      | [_], h => simp at h
      | [_, _], h => simp at h
      | [_, _, _], h => simp at h
    have hset : ((v :: s :: r :: t :: rest).set 0 v').set 2 r' = v' :: s :: r' :: t :: rest := rfl
    rw [hset]
    obtain ⟨b1, hc1, hl1, hread1, h11, h13⟩ :=
      connectReply_header ⟨v :: s :: r :: t :: rest, w, k⟩ buf v s r t rest hlen rfl
    obtain ⟨b2, hc2, hl2, hread2, h21, h23⟩ :=
      connectReply_header ⟨v' :: s :: r' :: t :: rest, w, k⟩ buf v' s r' t rest hlen rfl
    have hc : b1.cap = b2.cap := by omega
    simp only [connectReply, hread1, hread2, h11, h13, h21, h23]
    rw [connectBound_upto_shape _ b1 b2 4 hc, connectBound_upto_shape _ b1 b2 16 hc]
    split_ifs with hf h4 h6 h3
    · rfl
    · rfl
    · rfl
    · rcases ReadFull_cases ⟨rest, w, k⟩ b1 1 with ⟨q1, e1⟩ | ⟨q1, q2, e1⟩ | ⟨q1, q2, e1⟩
      · omega
      · rw [e1, ReadFull_short ⟨rest, w, k⟩ b2 1 q2 (by omega)]
      · rcases ReadFull_cases ⟨rest, w, k⟩ b2 1 with ⟨q3, e2⟩ | ⟨q3, q4, e2⟩ | ⟨q3, q4, e2⟩
        · omega
        · omega
        · obtain ⟨l, tl, hrest⟩ : ∃ l tl, rest = l :: tl := by
            cases rest with
            | nil => simp at q2
            | cons l tl => exact ⟨l, tl, rfl⟩
          subst hrest
          have i1 : (b1.fill [l]).index 0 = some l := by
            rw [b1.fill_index _ 0 (by simp) (by omega)]; rfl
          have i2 : (b2.fill [l]).index 0 = some l := by
            rw [b2.fill_index _ 0 (by simp) (by omega)]; rfl
          have f1 : (b1.fill [l]).cap = (b2.fill [l]).cap := by
            rw [Slice.fill_cap _ _ (by simp; omega), Slice.fill_cap _ _ (by simp; omega), hc]
          rw [e1, e2]
          simp only [List.take_succ_cons, List.take_zero, i1, i2]
          exact connectBound_upto_shape _ _ _ l f1
    · rfl

theorem connectRequest_first_byte (grow : Nat → Nat → Nat) (conn : Conn) (b : Slice)
    (x y st : Nat) (host : Bytes) (port : Nat) (hlen : 3 ≤ b.data.length) :
    connectRequest grow conn (b.fill [x, st]) host port
      = connectRequest grow conn (b.fill [y, st]) host port := by
  have hu : ∀ z : Nat, (b.fill [z, st]).upto 0
      = some ⟨[], [z, st] ++ (b.data ++ b.spare).drop 2⟩ := by
    intro z
    simp [Slice.upto, Slice.fill]
  have ha : ∀ z : Nat, Slice.append grow ⟨[], [z, st] ++ (b.data ++ b.spare).drop 2⟩
        [socks5Version, socks5Connect, 0]
      = ⟨[socks5Version, socks5Connect, 0], (b.data ++ b.spare).drop 3⟩ := by
    intro z
    have h3 : ([socks5Version, socks5Connect, 0] : Bytes).length
        ≤ ([z, st] ++ (b.data ++ b.spare).drop 2).length := by
      simp; omega
    unfold Slice.append
    rw [if_pos h3]
    simp
  simp only [connectRequest, hu, ha]

/-! ## The claims -/

/-- C1 (the code departs from the claim): a CONNECT reply whose status byte is 9 or
more is not in the table, the status check lets it pass, and with a well-formed
bound address of type 0x01 `connect` returns success. -/
theorem connect_unlisted_status_succeeds (grow : Nat → Nat → Nat) (d : socks5Dialer)
    (conn : Conn) (target host : Bytes) (port : Nat) (pre : Bytes) (v s r : Nat)
    (a4 p2 tail : Bytes) (ht : validTarget target host port) (hp : Accepted d pre)
    (hhost : ParseIP host ≠ [] ∨ host.length ≤ 255)
    (hin : conn.incoming = pre ++ v :: s :: r :: 1 :: (a4 ++ p2 ++ tail))
    (hw : 3 ≤ conn.writeBudget) (hs : 9 ≤ s) (ha : a4.length = 4) (hp2 : p2.length = 2) :
    (connect grow d conn target).1 = .ok ∧ (connect grow d conn target).2.incoming = tail := by
  obtain ⟨addr, b, -, hd, hcap, -, he⟩ := connect_to_reply grow d conn target host port pre _ ht hp
    hhost hin hw
  have hlen : 4 ≤ b.data.length := by rw [hd]; simp
  obtain ⟨b1, hc1, -, he1⟩ := connectReply_pass
    ⟨v :: s :: r :: 1 :: (a4 ++ p2 ++ tail), conn.written ++ negotiation d pre ++ [b.data],
      conn.writeBudget - pre.length / 2 - 1⟩ b v s r 1 (a4 ++ p2 ++ tail) hlen rfl (Or.inr hs)
  obtain ⟨b2, hu, hl2, hc2⟩ := b1.upto_of_le 4 (by omega)
  rw [he, he1, if_pos (show 1 = socks5IP4 from rfl), hu, connectBound_ok _ b2 a4 p2 tail rfl (by omega) hp2 (by omega)]
  exact ⟨rfl, rfl⟩

/-- Witness of C1: destination "1.2.3.4:80", no credentials, the proxy accepts "no
authentication" and answers CONNECT with status 9. -/
theorem connect_unlisted_status_succeeds_witness :
    (connect exactGrow ⟨[], [], []⟩ (Conn.fresh [5, 0, 5, 9, 0, 1, 0, 0, 0, 0, 0, 0])
      (str "1.2.3.4:80")).1 = .ok ∧
    (connect exactGrow ⟨[], [], []⟩ (Conn.fresh [5, 0, 5, 9, 0, 1, 0, 0, 0, 0, 0, 0])
      (str "1.2.3.4:80")).2.incoming = [] :=
  connect_unlisted_status_succeeds exactGrow ⟨[], [], []⟩
    (Conn.fresh [5, 0, 5, 9, 0, 1, 0, 0, 0, 0, 0, 0]) (str "1.2.3.4:80") (str "1.2.3.4") 80
    [5, 0] 5 9 0 [0, 0, 0, 0] [0, 0] [] ⟨str "80", by decide, by decide, by decide, by decide⟩
    (Accepted.direct 0 (by decide) (by decide)) (Or.inr (by decide)) (by decide) (by decide)
    (by decide) (by decide) (by decide)

/-- C7: when the handshake reaches the CONNECT reply and its status byte `s` lies in
1..8, `connect` fails with the error whose reason is the `s`-th entry of the fixed
table; for status 0 the status check produces no error. -/
theorem connect_status_reason (grow : Nat → Nat → Nat) (d : socks5Dialer) (conn : Conn)
    (target host : Bytes) (port : Nat) (pre : Bytes) (v s r t : Nat) (rest : Bytes)
    (ht : validTarget target host port) (hp : Accepted d pre)
    (hhost : ParseIP host ≠ [] ∨ host.length ≤ 255)
    (hin : conn.incoming = pre ++ v :: s :: r :: t :: rest) (hw : 3 ≤ conn.writeBudget) :
    (1 ≤ s → s ≤ 8 → (connect grow d conn target).1 = .error (.failedToConnect
      (["general failure", "connection forbidden", "network unreachable", "host unreachable",
        "connection refused", "TTL expired", "command not supported",
        "address type not supported"].getD (s - 1) ""))) ∧
    (s = 0 → ∀ reason, (connect grow d conn target).1 ≠ .error (.failedToConnect reason)) := by
  obtain ⟨addr, b, -, hd, -, -, he⟩ := connect_to_reply grow d conn target host port pre _ ht hp
    hhost hin hw
  have hlen : 4 ≤ b.data.length := by rw [hd]; simp
  constructor
  · intro h1 h8
    rw [he, connectReply_failure _ b v s r t rest hlen rfl h1 h8]
    interval_cases s <;> rfl
  · intro h0 reason
    obtain ⟨b1, -, -, he1⟩ := connectReply_pass
      ⟨v :: s :: r :: t :: rest, conn.written ++ negotiation d pre ++ [b.data],
        conn.writeBudget - pre.length / 2 - 1⟩ b v s r t rest hlen rfl (Or.inl h0)
    rw [he, he1]
    split
    · exact connectBound_ne_failed _ _ _
    · split
      · exact connectBound_ne_failed _ _ _
      · split
        · split
          · simp
          · simp
          · split
            · simp
            · exact connectBound_ne_failed _ _ _
        · simp

/-- Witness of C7: destination "1.2.3.4:80", no credentials, CONNECT reply with
status 5. -/
theorem connect_status_reason_witness :
    (connect exactGrow ⟨[], [], []⟩ (Conn.fresh [5, 0, 5, 5, 0, 1]) (str "1.2.3.4:80")).1
      = .error (.failedToConnect "connection refused") :=
  (connect_status_reason exactGrow ⟨[], [], []⟩ (Conn.fresh [5, 0, 5, 5, 0, 1])
    (str "1.2.3.4:80") (str "1.2.3.4") 80 [5, 0] 5 5 0 1 []
    ⟨str "80", by decide, by decide, by decide, by decide⟩
    (Accepted.direct 0 (by decide) (by decide)) (Or.inr (by decide)) (by decide)
    (by decide)).1 (by decide) (by decide)

/-- C3, counterexample: with the CONNECT reply `05 05 00 01 01 02 03 04 00 50`
(status 5, address type 0x01) `connect` fails with "connection refused" when only
the 4 header bytes of the reply have been read: the 4 address bytes and the 2 port
bytes are still unread, so 4 bytes were consumed and not 10. -/
theorem connect_refused_counterexample :
    connect exactGrow ⟨[], [], []⟩ (Conn.fresh [5, 0, 5, 5, 0, 1, 1, 2, 3, 4, 0, 80])
        (str "1.2.3.4:80")
      = (.error (.failedToConnect "connection refused"),
          ⟨[1, 2, 3, 4, 0, 80], [[5, 1, 0], [5, 1, 0, 1, 1, 2, 3, 4, 0, 80]], 1⟩) ∧
    ¬ ((connect exactGrow ⟨[], [], []⟩ (Conn.fresh [5, 0, 5, 5, 0, 1, 1, 2, 3, 4, 0, 80])
        (str "1.2.3.4:80")).2.incoming = []) := by
  decide

/-- C3, amended: for a CONNECT reply with a status in 1..8 and address type 0x01 the
handshake fails with the mapped reason after consuming exactly the 4 header bytes of
the CONNECT reply; everything after them (bound address and port included) is left
unread. -/
theorem connect_failure_consumes_header (grow : Nat → Nat → Nat) (d : socks5Dialer)
    (conn : Conn) (target host : Bytes) (port : Nat) (pre : Bytes) (v s r : Nat) (rest : Bytes)
    (ht : validTarget target host port) (hp : Accepted d pre)
    (hhost : ParseIP host ≠ [] ∨ host.length ≤ 255)
    (hin : conn.incoming = pre ++ [v, s, r, 1] ++ rest) (hw : 3 ≤ conn.writeBudget)
    (h1 : 1 ≤ s) (h8 : s ≤ 8) :
    (connect grow d conn target).1 = .error (.failedToConnect (socks5Errors.getD s "")) ∧
      (connect grow d conn target).2.incoming = rest := by
  obtain ⟨addr, b, -, hd, -, -, he⟩ := connect_to_reply grow d conn target host port pre
    (v :: s :: r :: 1 :: rest) ht hp hhost (by simpa using hin) hw
  have hlen : 4 ≤ b.data.length := by rw [hd]; simp
  rw [he, connectReply_failure _ b v s r 1 rest hlen rfl h1 h8]
  exact ⟨rfl, rfl⟩

/-- Witness of C3 as amended: the reply of the counterexample. -/
theorem connect_failure_consumes_header_witness :
    (connect exactGrow ⟨[], [], []⟩ (Conn.fresh [5, 0, 5, 5, 0, 1, 1, 2, 3, 4, 0, 80])
        (str "1.2.3.4:80")).1 = .error (.failedToConnect "connection refused") ∧
    (connect exactGrow ⟨[], [], []⟩ (Conn.fresh [5, 0, 5, 5, 0, 1, 1, 2, 3, 4, 0, 80])
        (str "1.2.3.4:80")).2.incoming = [1, 2, 3, 4, 0, 80] :=
  connect_failure_consumes_header exactGrow ⟨[], [], []⟩
    (Conn.fresh [5, 0, 5, 5, 0, 1, 1, 2, 3, 4, 0, 80]) (str "1.2.3.4:80") (str "1.2.3.4") 80
    [5, 0] 5 5 0 [1, 2, 3, 4, 0, 80] ⟨str "80", by decide, by decide, by decide, by decide⟩
    (Accepted.direct 0 (by decide) (by decide)) (Or.inr (by decide)) (by decide) (by decide)
    (by decide) (by decide)

set_option maxRecDepth 100000 in
/-- C2, counterexample: for a 256-byte domain name the too-long error is returned
only after the greeting `05 01 00` has been written and the proxy's 2-byte reply has
been read. -/
theorem connect_long_host_counterexample :
    connect exactGrow ⟨[], [], []⟩ (Conn.fresh [5, 0]) (List.replicate 256 97 ++ str ":443")
      = (.error (.hostNameTooLong (List.replicate 256 97)), ⟨[], [[5, 1, 0]], 2⟩) ∧
    ¬ ((connect exactGrow ⟨[], [], []⟩ (Conn.fresh [5, 0])
        (List.replicate 256 97 ++ str ":443")).2 = Conn.fresh [5, 0]) := by
  decide

/-- C2, amended: for a destination whose host is not an IP literal and is longer than
255 bytes, `connect` fails with the destination-host-name-too-long error once the
proxy's replies to the greeting (and to the authentication request, when the proxy
chose username/password) have been read and accepted: the greeting (and the
authentication request) has been written by then, and no CONNECT request is written. -/
theorem connect_long_host_after_negotiation (grow : Nat → Nat → Nat) (d : socks5Dialer)
    (conn : Conn) (target host : Bytes) (port : Nat) (pre rest : Bytes)
    (ht : validTarget target host port) (hp : Accepted d pre) (hnip : ParseIP host = [])
    (hlong : 255 < host.length) (hin : conn.incoming = pre ++ rest)
    (hw : pre.length / 2 ≤ conn.writeBudget) :
    connect grow d conn target
      = (.error (.hostNameTooLong host),
          ⟨rest, conn.written ++ negotiation d pre, conn.writeBudget - pre.length / 2⟩) := by
  obtain ⟨buf, -, -, he⟩ := connect_accepted grow d conn target host port
    (conn.writeBudget - pre.length / 2) pre rest ht hp hin (by omega)
  have ha : addressField host = none := by
    simp [addressField, hnip, To4, To16, hlong]
  rw [he, connectRequest_tooLong grow _ buf host port ha]

set_option maxRecDepth 100000 in
/-- Witness of C2 as amended: a host of 256 letters `a`, no credentials, greeting
reply `05 00`. -/
theorem connect_long_host_after_negotiation_witness :
    connect exactGrow ⟨[], [], []⟩ (Conn.fresh [5, 0]) (List.replicate 256 97 ++ str ":443")
      = (.error (.hostNameTooLong (List.replicate 256 97)), ⟨[], [[5, 1, 0]], 2⟩) :=
  connect_long_host_after_negotiation exactGrow ⟨[], [], []⟩ (Conn.fresh [5, 0])
    (List.replicate 256 97 ++ str ":443") (List.replicate 256 97) 443 [5, 0] []
    ⟨str "443", by decide, by decide, by decide, by decide⟩
    (Accepted.direct 0 (by decide) (by decide)) (by decide) (by decide) (by decide) (by decide)

/-- C4 (the code departs from the claim): for an IPv4 destination written in fewer
than 10 bytes, no authentication, and a CONNECT reply with status 0 and address type
0x04, the scratch buffer still has the capacity `6 + len(host)` it was made with,
which is below 16, and `buf[:16]` panics. -/
theorem connect_ip6_reply_panics (grow : Nat → Nat → Nat) (d : socks5Dialer) (conn : Conn)
    (target host : Bytes) (port m v r : Nat) (rest : Bytes)
    (ht : validTarget target host port) (hip : To4 (ParseIP host) ≠ [])
    (hlo : 4 ≤ host.length) (hhi : host.length < 10) (hff : m ≠ 0xff) (hpw : m ≠ 2)
    (hin : conn.incoming = [5, m] ++ [v, 0, r, 4] ++ rest) (hw : 3 ≤ conn.writeBudget) :
    (connect grow d conn target).1 = .panic := by
  obtain ⟨addr, b, ha, hd, -, hfit, he⟩ := connect_to_reply grow d conn target host port [5, m]
    (v :: 0 :: r :: 4 :: rest) ht (Accepted.direct m hff hpw) (Or.inr (by omega))
    (by simpa using hin) hw
  have haddr : addr = socks5IP4 :: To4 (ParseIP host) := by
    simp [addressField, hip] at ha; exact ha.symm
  have hlen : b.data.length = 10 := by
    rw [hd, haddr]; simp [To4_length _ hip]
  have hcap : b.cap = 6 + host.length := hfit rfl (by omega)
  obtain ⟨b1, hc1, -, he1⟩ := connectReply_pass
    ⟨v :: 0 :: r :: 4 :: rest, conn.written ++ negotiation d [5, m] ++ [b.data],
      conn.writeBudget - ([5, m] : Bytes).length / 2 - 1⟩ b v 0 r 4 rest (by omega) rfl
    (Or.inl rfl)
  rw [he, he1, if_neg (show ¬ (4 = socks5IP4) by decide), if_pos (show 4 = socks5IP6 from rfl),
    Slice.upto_of_lt b1 16 (by omega)]
  rfl

/-- Witness of C4: destination "1.2.3.4:80", no credentials, reply
`05 00 00 04`, 16 address bytes and 2 port bytes. -/
theorem connect_ip6_reply_panics_witness :
    (connect exactGrow ⟨[], [], []⟩
      (Conn.fresh ([5, 0] ++ [5, 0, 0, 4] ++ List.replicate 18 0)) (str "1.2.3.4:80")).1
      = .panic :=
  connect_ip6_reply_panics exactGrow ⟨[], [], []⟩
    (Conn.fresh ([5, 0] ++ [5, 0, 0, 4] ++ List.replicate 18 0)) (str "1.2.3.4:80")
    (str "1.2.3.4") 80 0 5 0 (List.replicate 18 0)
    ⟨str "80", by decide, by decide, by decide, by decide⟩ (by decide) (by decide) (by decide)
    (by decide) (by decide) (by decide) (by decide)

/-- C5, counterexample: "::ffff:1.2.3.4" is a valid IPv6 literal (it parses to 16
bytes), and the CONNECT request for it carries the tag 0x01 and the 4 bytes
`01 02 03 04`, not the tag 0x04 and 16 bytes. -/
theorem connect_mapped_ip6_counterexample :
    ParseIP (str "::ffff:1.2.3.4") = [0, 0, 0, 0, 0, 0, 0, 0, 0, 0, 255, 255, 1, 2, 3, 4] ∧
    (connect exactGrow ⟨[], [], []⟩ (Conn.fresh [5, 0]) (str "[::ffff:1.2.3.4]:80")).2.written
      = [[5, 1, 0], [5, 1, 0, 1, 1, 2, 3, 4, 0, 80]] := by
  decide

/-- C5, amended: for a destination host that is a valid IPv6 literal and is not an
IPv4-mapped address, the CONNECT request carries the tag 0x04 followed by the 16 raw
address bytes; for an IPv4-mapped literal (`::ffff:a.b.c.d`) it carries the tag 0x01
followed by the 4 bytes of the embedded IPv4 address. -/
theorem connect_ip6_request (grow : Nat → Nat → Nat) (d : socks5Dialer) (conn : Conn)
    (target host : Bytes) (port : Nat) (pre reply : Bytes)
    (ht : validTarget target host port) (hp : Accepted d pre) (hip : ParseIP host ≠ [])
    (hin : conn.incoming = pre ++ reply) (hw : 3 ≤ conn.writeBudget) :
    (To4 (ParseIP host) = [] →
      (ParseIP host).length = 16 ∧
      (connect grow d conn target).2.written = conn.written ++ negotiation d pre
        ++ [[5, 1, 0, 4] ++ ParseIP host ++ [port / 256 % 256, port % 256]]) ∧
    (To4 (ParseIP host) ≠ [] →
      (To4 (ParseIP host)).length = 4 ∧
      (connect grow d conn target).2.written = conn.written ++ negotiation d pre
        ++ [[5, 1, 0, 1] ++ To4 (ParseIP host) ++ [port / 256 % 256, port % 256]]) := by
  have h16 : (ParseIP host).length = 16 := by
    rcases ParseIP_length host with h | h
    · exact absurd h hip
    · exact h
  constructor
  · intro h4
    have ha : addressField host = some (socks5IP6 :: ParseIP host) := by
      simp [addressField, h4, To16_ne_nil _ h16, hip]
    refine ⟨h16, ?_⟩
    rw [connect_request_written grow d conn target host port pre reply _ ht hp ha hin hw]
    simp [socks5IP6]
  · intro h4
    have ha : addressField host = some (socks5IP4 :: To4 (ParseIP host)) := by
      simp [addressField, h4]
    refine ⟨To4_length _ h4, ?_⟩
    rw [connect_request_written grow d conn target host port pre reply _ ht hp ha hin hw]
    simp [socks5IP4]

/-- Witness of C5 as amended: destination "[2001:db8::1]:443". -/
theorem connect_ip6_request_witness :
    (connect exactGrow ⟨[], [], []⟩ (Conn.fresh [5, 0]) (str "[2001:db8::1]:443")).2.written
      = [[5, 1, 0],
         [5, 1, 0, 4, 0x20, 0x01, 0x0d, 0xb8, 0, 0, 0, 0, 0, 0, 0, 0, 0, 0, 0, 1, 1, 187]] :=
  ((connect_ip6_request exactGrow ⟨[], [], []⟩ (Conn.fresh [5, 0]) (str "[2001:db8::1]:443")
    (str "2001:db8::1") 443 [5, 0] [] ⟨str "443", by decide, by decide, by decide, by decide⟩
    (Accepted.direct 0 (by decide) (by decide)) (by decide) (by decide) (by decide)).1
    (by decide)).2

/-- C10: for a destination host that is not an IP literal and is at most 255 bytes
long, the CONNECT request carries the tag 0x03, one length byte equal to the byte
length of the host, and the bytes of the host unchanged (then the two port bytes). -/
theorem connect_domain_request (grow : Nat → Nat → Nat) (d : socks5Dialer) (conn : Conn)
    (target host : Bytes) (port : Nat) (pre reply : Bytes)
    (ht : validTarget target host port) (hp : Accepted d pre) (hnip : ParseIP host = [])
    (hlen : host.length ≤ 255) (hin : conn.incoming = pre ++ reply)
    (hw : 3 ≤ conn.writeBudget) :
    (connect grow d conn target).2.written = conn.written ++ negotiation d pre
      ++ [[5, 1, 0, 3, host.length] ++ host ++ [port / 256 % 256, port % 256]] := by
  have hmod : host.length % 256 = host.length := Nat.mod_eq_of_lt (by omega)
  have ha : addressField host = some (socks5Domain :: host.length % 256 :: host) := by
    simp [addressField, hnip, To4, To16]; omega
  rw [connect_request_written grow d conn target host port pre reply _ ht hp ha hin hw]
  simp [socks5Domain, hmod]

set_option maxRecDepth 100000 in
/-- Witness of C10: a host of exactly 255 letters `a` is accepted, and its length
byte is 255. -/
theorem connect_domain_request_witness :
    (connect exactGrow ⟨[], [], []⟩ (Conn.fresh [5, 0])
        (List.replicate 255 97 ++ str ":443")).2.written
      = [[5, 1, 0], [5, 1, 0, 3, 255] ++ List.replicate 255 97 ++ [1, 187]] :=
  connect_domain_request exactGrow ⟨[], [], []⟩ (Conn.fresh [5, 0])
    (List.replicate 255 97 ++ str ":443") (List.replicate 255 97) 443 [5, 0] []
    ⟨str "443", by decide, by decide, by decide, by decide⟩
    (Accepted.direct 0 (by decide) (by decide)) (by decide) (by decide) (by decide) (by decide)

/-- C8: whenever `connect` returns success it has consumed from the proxy stream
exactly the 2 greeting-reply bytes `05 m`, the 2 authentication-reply bytes if and only
if the chosen method `m` was 0x02, and a CONNECT reply made of 4 header bytes, a bound
address of 4 bytes for address type 0x01, 16 bytes for 0x04 and `1 + l` bytes for 0x03
with length byte `l`, and 2 port bytes; everything after that is left unread. -/
theorem connect_success_consumes (grow : Nat → Nat → Nat) (d : socks5Dialer) (conn : Conn)
    (target : Bytes) (c : Conn) (h : connect grow d conn target = (.ok, c)) :
    ∃ (m : Nat) (auth : Bytes) (v s r t : Nat) (addr p : Bytes),
      conn.incoming = [5, m] ++ auth ++ [v, s, r, t] ++ addr ++ p ++ c.incoming ∧
      (m = 2 → auth.length = 2) ∧ (m ≠ 2 → auth = []) ∧ p.length = 2 ∧
      (t = 1 ∧ addr.length = 4 ∨ t = 4 ∧ addr.length = 16 ∨
        t = 3 ∧ ∃ (l : Nat) (body : Bytes), addr = l :: body ∧ body.length = l) := by
  obtain ⟨a, b, c1, buf, host, port, hin1, ha, hb, h1⟩ := connect_inv grow d conn target c h
  obtain ⟨m, auth, c2, b2, h0, hm1, hin2, hauth, hnone, h2⟩ :=
    connectMethod_inv grow d c1 buf host port c h1
  obtain ⟨c3, b3, hin3, h3⟩ := connectRequest_inv grow c2 b2 host port c h2
  obtain ⟨v, s, r, t, addr, p, hin4, hp, ht⟩ := connectReply_inv c3 b3 c h3
  refine ⟨m, auth, v, s, r, t, addr, p, ?_, hauth, hnone, hp, ht⟩
  rw [hin1, hin2, ← hin3, hin4, ← ha 5 h0, ← hb m hm1]
  simp

/-- Witness of C8: credentials "user"/"pw", destination "[::1]:443", the proxy
chooses username/password, accepts, and answers CONNECT with a bound domain name of 2
bytes; the byte 9 that follows the reply is left unread. -/
theorem connect_success_consumes_witness :
    ∃ (m : Nat) (auth : Bytes) (v s r t : Nat) (addr p : Bytes),
      [5, 2, 1, 0, 5, 0, 0, 3, 2, 1, 1, 0, 0, 9]
        = [5, m] ++ auth ++ [v, s, r, t] ++ addr ++ p ++ [9] ∧
      (m = 2 → auth.length = 2) ∧ (m ≠ 2 → auth = []) ∧ p.length = 2 ∧
      (t = 1 ∧ addr.length = 4 ∨ t = 4 ∧ addr.length = 16 ∨
        t = 3 ∧ ∃ (l : Nat) (body : Bytes), addr = l :: body ∧ body.length = l) :=
  connect_success_consumes exactGrow ⟨[], str "user", str "pw"⟩
    (Conn.fresh [5, 2, 1, 0, 5, 0, 0, 3, 2, 1, 1, 0, 0, 9]) (str "[::1]:443")
    ⟨[9], [[5, 2, 0, 2], [1, 4, 117, 115, 101, 114, 2, 112, 119],
      [5, 1, 0, 4, 0, 0, 0, 0, 0, 0, 0, 0, 0, 0, 0, 0, 0, 0, 0, 1, 1, 187]], 0⟩ (by decide)

/-- C9: for a destination host that is a valid IPv4 literal (the IPv4 parser accepts
it, with octets `ip4`), the CONNECT request is `05 01 00`, the tag 0x01, the four
octets in the order of the literal, and the two port bytes; the dotted-decimal text of
these four octets is the literal itself. -/
theorem connect_ip4_request (grow : Nat → Nat → Nat) (d : socks5Dialer) (conn : Conn)
    (target host ip4 : Bytes) (port : Nat) (pre reply : Bytes)
    (hlit : parseIPv4Fields host = some ip4)
    (ht : validTarget target host port) (hp : Accepted d pre)
    (hin : conn.incoming = pre ++ reply) (hw : 3 ≤ conn.writeBudget) :
    ∃ a b c e, ip4 = [a, b, c, e] ∧ dottedDecimal a b c e = host ∧
      (connect grow d conn target).2.written = conn.written ++ negotiation d pre
        ++ [[5, 1, 0, 1, a, b, c, e, port / 256 % 256, port % 256]] := by
  obtain ⟨a, b, c, e, ha, hb, hc, he, hip4, hhost⟩ := parseIPv4Fields_text host ip4 hlit
  refine ⟨a, b, c, e, hip4, hhost.symm, ?_⟩
  subst hhost
  have hip := ParseIP_dottedDecimal a b c e ha hb hc he
  have h4 : To4 (ParseIP (dottedDecimal a b c e)) = [a, b, c, e] := by
    rw [hip]; simp [To4, v4InV6]
  have hf : addressField (dottedDecimal a b c e) = some (socks5IP4 :: [a, b, c, e]) := by
    simp [addressField, h4]
  rw [connect_request_written grow d conn target _ port pre reply _ ht hp hf hin hw]
  simp [socks5IP4]

/-- Witness of C9: destination "192.168.0.1:8080". -/
theorem connect_ip4_request_witness :
    ∃ a b c e, [192, 168, 0, 1] = [a, b, c, e] ∧ dottedDecimal a b c e = str "192.168.0.1" ∧
      (connect exactGrow ⟨[], [], []⟩ (Conn.fresh [5, 0]) (str "192.168.0.1:8080")).2.written
        = [[5, 1, 0], [5, 1, 0, 1, a, b, c, e, 31, 144]] :=
  connect_ip4_request exactGrow ⟨[], [], []⟩ (Conn.fresh [5, 0]) (str "192.168.0.1:8080")
    (str "192.168.0.1") [192, 168, 0, 1] 8080 [5, 0] [] (by decide)
    ⟨str "8080", by decide, by decide, by decide, by decide⟩
    (Accepted.direct 0 (by decide) (by decide)) (by decide) (by decide)

/-- C6 (the code departs from the claim): the port check of `parseSocks5Proxy` only
looks for a colon in the address. "[::1]" has no port (`net.SplitHostPort` rejects
it) and "10.0.0.1:" has an empty port, and both are accepted as they stand; of the
three inputs of the claim only "10.0.0.1" is rejected with the must-include-port
error. -/
theorem parseSocks5Proxy_accepts_portless :
    parseSocks5Proxy (str "[::1]") = .ok ⟨str "[::1]", [], []⟩ ∧
    SplitHostPort (str "[::1]") = none ∧
    parseSocks5Proxy (str "10.0.0.1:") = .ok ⟨str "10.0.0.1:", [], []⟩ ∧
    SplitHostPort (str "10.0.0.1:") = some (str "10.0.0.1", []) ∧
    parseSocks5Proxy (str "10.0.0.1") = .error .mustIncludePort := by
  exact ⟨rfl, by decide, rfl, by decide, rfl⟩

/-- C11: for every destination port `p` in 1..65535 and every address type, the
CONNECT request ends in the two bytes `p / 256` and `p % 256`, which are bytes and
give `p` back as `256 * hi + lo` (big-endian). -/
theorem connect_port_bytes (grow : Nat → Nat → Nat) (d : socks5Dialer) (conn : Conn)
    (target host : Bytes) (port : Nat) (pre reply : Bytes)
    (ht : validTarget target host port) (hp : Accepted d pre)
    (hhost : ParseIP host ≠ [] ∨ host.length ≤ 255)
    (hin : conn.incoming = pre ++ reply) (hw : 3 ≤ conn.writeBudget) :
    ∃ body : Bytes, (connect grow d conn target).2.written
        = conn.written ++ negotiation d pre ++ [body ++ [port / 256, port % 256]] ∧
      port / 256 < 256 ∧ port % 256 < 256 ∧ 256 * (port / 256) + port % 256 = port := by
  obtain ⟨addr, ha⟩ := addressField_some host hhost
  have hle : port ≤ 65535 := by
    obtain ⟨_, _, _, _, h⟩ := ht; exact h
  have hmod : port / 256 % 256 = port / 256 := Nat.mod_eq_of_lt (by omega)
  refine ⟨[5, 1, 0] ++ addr, ?_, by omega, by omega, by omega⟩
  rw [connect_request_written grow d conn target host port pre reply addr ht hp ha hin hw, hmod]

/-- Witness of C11: port 8080 is sent as `1f 90`. -/
theorem connect_port_bytes_witness :
    ∃ body : Bytes, (connect exactGrow ⟨[], [], []⟩ (Conn.fresh [5, 0])
        (str "example.com:8080")).2.written = [[5, 1, 0], body ++ [31, 144]] ∧
      8080 / 256 < 256 ∧ 8080 % 256 < 256 ∧ 256 * (8080 / 256) + 8080 % 256 = 8080 :=
  connect_port_bytes exactGrow ⟨[], [], []⟩ (Conn.fresh [5, 0]) (str "example.com:8080")
    (str "example.com") 8080 [5, 0] [] ⟨str "8080", by decide, by decide, by decide, by decide⟩
    (Accepted.direct 0 (by decide) (by decide)) (Or.inr (by decide)) (by decide) (by decide)

/-- C12: the greeting that `connect` writes is `05 02 00 02` when the username is not
empty and username and password are both shorter than 256 bytes (an empty password
included), and `05 01 00` in every other case. -/
theorem connect_greeting_written (grow : Nat → Nat → Nat) (d : socks5Dialer) (conn : Conn)
    (target host : Bytes) (port : Nat) (ht : validTarget target host port)
    (hw : 1 ≤ conn.writeBudget) :
    ∃ more, (connect grow d conn target).2.written = conn.written ++
      (if 0 < d.username.length ∧ d.username.length < 256 ∧ d.password.length < 256
        then [5, 2, 0, 2] else [5, 1, 0]) :: more := by
  have hg : (if 0 < d.username.length ∧ d.username.length < 256 ∧ d.password.length < 256
      then [5, 2, 0, 2] else [5, 1, 0]) = greetingOf d := rfl
  rw [hg]
  obtain ⟨buf, -, -, he⟩ := connect_after_greeting grow d conn target host port
    (conn.writeBudget - 1) ht (by omega)
  rw [he]
  split
  · exact ⟨[], by simp⟩
  · rename_i c hr
    have := (ReadFull_conn _ buf 2).1 c hr
    exact ⟨[], by simp [this.1]⟩
  · rename_i b c hr
    have := (ReadFull_conn _ buf 2).2 b c hr
    obtain ⟨more, hm⟩ := connectMethod_extends grow d c b host port
    exact ⟨more, by rw [hm, this.1]; simp⟩

/-- Witness of C12: username "user" with an empty password is offered both methods. -/
theorem connect_greeting_written_witness :
    ∃ more, (connect exactGrow ⟨[], str "user", []⟩ (Conn.fresh [5, 0])
        (str "example.com:8080")).2.written = [5, 2, 0, 2] :: more :=
  connect_greeting_written exactGrow ⟨[], str "user", []⟩ (Conn.fresh [5, 0])
    (str "example.com:8080") (str "example.com") 8080
    ⟨str "8080", by decide, by decide, by decide, by decide⟩ (by decide)

/-- C18: for a destination whose port parses as an integer outside 1..65535,
`connect` fails with the port-out-of-range error and leaves the connection as it
found it: nothing has been written and nothing read. -/
theorem connect_port_out_of_range (grow : Nat → Nat → Nat) (d : socks5Dialer) (conn : Conn)
    (target host portStr : Bytes) (p : Int) (hs : SplitHostPort target = some (host, portStr))
    (ha : Atoi portStr = some p) (hp : p < 1 ∨ 65535 < p) :
    connect grow d conn target = (.error (.portOutOfRange portStr), conn) := by
  have hr : p < 1 ∨ p > 0xffff := hp
  simp only [connect, hs, ha, if_pos hr]

/-- Witness of C18: the ports 0 and 65536. -/
theorem connect_port_out_of_range_witness :
    connect exactGrow ⟨[], [], []⟩ (Conn.fresh [5, 0]) (str "1.2.3.4:0")
      = (.error (.portOutOfRange (str "0")), Conn.fresh [5, 0]) ∧
    connect exactGrow ⟨[], [], []⟩ (Conn.fresh [5, 0]) (str "1.2.3.4:65536")
      = (.error (.portOutOfRange (str "65536")), Conn.fresh [5, 0]) :=
  ⟨connect_port_out_of_range exactGrow ⟨[], [], []⟩ (Conn.fresh [5, 0]) (str "1.2.3.4:0")
      (str "1.2.3.4") (str "0") 0 (by decide) (by decide) (by decide),
   connect_port_out_of_range exactGrow ⟨[], [], []⟩ (Conn.fresh [5, 0]) (str "1.2.3.4:65536")
      (str "1.2.3.4") (str "65536") 65536 (by decide) (by decide) (by decide)⟩

/-- C19: whatever the client was, `SetSocks5Proxy("")` returns no error and leaves the
HTTP client without a transport (no SOCKS5 dialer is installed), with `accountId` and
`secretKey` unchanged. -/
theorem SetSocks5Proxy_empty (c : Client) :
    (c.SetSocks5Proxy (str "")).1 = none ∧ (c.SetSocks5Proxy (str "")).2.transport = none ∧
      (c.SetSocks5Proxy (str "")).2.accountId = c.accountId ∧
      (c.SetSocks5Proxy (str "")).2.secretKey = c.secretKey := by
  simp [Client.SetSocks5Proxy, str]

/-- C15: if the greeting reply chooses method 0x02 while the dialer has no usable
credentials (username empty or at least 256 bytes, or password at least 256 bytes),
`connect` fails with the requires-username/password error; the greeting `05 01 00` is
all it has written. -/
theorem connect_password_without_credentials (grow : Nat → Nat → Nat) (d : socks5Dialer)
    (conn : Conn) (target host : Bytes) (port : Nat) (rest : Bytes)
    (ht : validTarget target host port)
    (hcred : d.username.length = 0 ∨ 256 ≤ d.username.length ∨ 256 ≤ d.password.length)
    (hin : conn.incoming = 5 :: 2 :: rest) (hw : 1 ≤ conn.writeBudget) :
    connect grow d conn target
      = (.error .requiresUsernamePassword,
          ⟨rest, conn.written ++ [[5, 1, 0]], conn.writeBudget - 1⟩) := by
  have hnot : ¬ usableCredentials d := by
    unfold usableCredentials; omega
  obtain ⟨buf, -, h0, h1, he⟩ := connect_greeting grow d conn target host port
    (conn.writeBudget - 1) 5 2 rest ht (by omega) hin
  have hc : d.username.length = 0 ∨ d.username.length ≥ 256 ∨ d.password.length ≥ 256 := hcred
  rw [he, greetingOf_plain d hnot]
  simp only [connectMethod, h0, h1]
  rw [if_neg (by simp [socks5Version]), if_neg (by decide), if_pos (by rfl), if_pos hc]

/-- Witness of C15: no credentials, greeting reply `05 02`. -/
theorem connect_password_without_credentials_witness :
    connect exactGrow ⟨[], [], []⟩ (Conn.fresh [5, 2, 1, 0]) (str "example.com:80")
      = (.error .requiresUsernamePassword, ⟨[1, 0], [[5, 1, 0]], 2⟩) :=
  connect_password_without_credentials exactGrow ⟨[], [], []⟩ (Conn.fresh [5, 2, 1, 0])
    (str "example.com:80") (str "example.com") 80 [1, 0]
    ⟨str "80", by decide, by decide, by decide, by decide⟩ (by decide) (by decide) (by decide)

/-- C13: when the proxy chooses method 0x02 and the credentials are usable (username
of 1..255 bytes, password of 0..255 bytes), the authentication request `connect`
writes after the greeting is `01`, the length of the username, the username, the
length of the password, the password; the length bytes are the exact lengths. -/
theorem connect_authentication_written (grow : Nat → Nat → Nat) (d : socks5Dialer)
    (conn : Conn) (target host : Bytes) (port : Nat) (rest : Bytes)
    (ht : validTarget target host port) (hcred : usableCredentials d)
    (hin : conn.incoming = 5 :: 2 :: rest) (hw : 2 ≤ conn.writeBudget) :
    ∃ more, (connect grow d conn target).2.written = conn.written ++
      [[5, 2, 0, 2], [1, d.username.length] ++ d.username ++ [d.password.length] ++ d.password]
        ++ more := by
  obtain ⟨buf, -, h0, h1, he⟩ := connect_greeting grow d conn target host port
    (conn.writeBudget - 1) 5 2 rest ht (by omega) hin
  obtain ⟨b5, -, -, he2⟩ := connectMethod_auth grow d
    ⟨rest, conn.written ++ [greetingOf d], conn.writeBudget - 1⟩ buf host port
    (conn.writeBudget - 2) h0 h1 hcred (by simp; omega)
  rw [he, he2, greetingOf_password d hcred, authenticationOf_exact d hcred]
  split
  · exact ⟨[], by simp⟩
  · rename_i c hr
    have := (ReadFull_conn _ b5 2).1 c hr
    exact ⟨[], by simp [this.1]⟩
  · rename_i b c hr
    have := (ReadFull_conn _ b5 2).2 b c hr
    split
    · exact ⟨[], by simp [this.1]⟩
    · split
      · exact ⟨[], by simp [this.1]⟩
      · obtain ⟨more, hm⟩ := connectRequest_extends grow c b host port
        exact ⟨more, by rw [hm, this.1]; simp⟩

/-- Witness of C13: username "user" and an empty password, which is still sent,
with length byte 0. -/
theorem connect_authentication_written_witness :
    ∃ more, (connect exactGrow ⟨[], str "user", []⟩ (Conn.fresh [5, 2, 1, 0])
        (str "example.com:80")).2.written
      = [[5, 2, 0, 2], [1, 4, 117, 115, 101, 114, 0]] ++ more :=
  connect_authentication_written exactGrow ⟨[], str "user", []⟩ (Conn.fresh [5, 2, 1, 0])
    (str "example.com:80") (str "example.com") 80 [1, 0]
    ⟨str "80", by decide, by decide, by decide, by decide⟩ (by decide) (by decide) (by decide)

/-- C14: with usable credentials and the proxy choosing method 0x02, `connect` fails
with the rejected-username/password error if and only if the second byte `st` of the
2-byte authentication reply is not zero; in that case only the greeting and the
authentication request have been written, no CONNECT request. With `st = 0` the
handshake goes on and writes the CONNECT request. -/
theorem connect_authentication_reply (grow : Nat → Nat → Nat) (d : socks5Dialer)
    (conn : Conn) (target host : Bytes) (port v st : Nat) (rest : Bytes)
    (ht : validTarget target host port) (hcred : usableCredentials d)
    (hhost : ParseIP host ≠ [] ∨ host.length ≤ 255)
    (hin : conn.incoming = 5 :: 2 :: v :: st :: rest) (hw : 3 ≤ conn.writeBudget) :
    ((connect grow d conn target).1 = .error .rejectedUsernamePassword ↔ st ≠ 0) ∧
    (st ≠ 0 → connect grow d conn target = (.error .rejectedUsernamePassword,
        ⟨rest, conn.written ++ [greetingOf d, authenticationOf d], conn.writeBudget - 2⟩)) ∧
    (st = 0 → ∃ addr, addressField host = some addr ∧
        (connect grow d conn target).2.written
          = conn.written ++ [greetingOf d, authenticationOf d]
              ++ [[5, 1, 0] ++ addr ++ [port / 256 % 256, port % 256]]) := by
  have hrej : st ≠ 0 → connect grow d conn target = (.error .rejectedUsernamePassword,
      ⟨rest, conn.written ++ [greetingOf d, authenticationOf d], conn.writeBudget - 2⟩) := by
    intro hst
    obtain ⟨buf, -, h0, h1, he⟩ := connect_greeting grow d conn target host port
      (conn.writeBudget - 1) 5 2 (v :: st :: rest) ht (by omega) hin
    obtain ⟨b5, hd5, -, he2⟩ := connectMethod_auth grow d
      ⟨v :: st :: rest, conn.written ++ [greetingOf d], conn.writeBudget - 1⟩ buf host port
      (conn.writeBudget - 2) h0 h1 hcred (by simp; omega)
    obtain ⟨b2, -, -, -, e4, e5⟩ := ReadFull_two
      ⟨v :: st :: rest, conn.written ++ [greetingOf d] ++ [authenticationOf d],
        conn.writeBudget - 2⟩ b5 v st rest rfl (by rw [hd5]; simp [authenticationOf])
    rw [he, he2, e5]
    simp [e4, hst]
  have hok : st = 0 → ∃ addr b, addressField host = some addr ∧
      (connect grow d conn target).2.written
        = conn.written ++ [greetingOf d, authenticationOf d]
            ++ [[5, 1, 0] ++ addr ++ [port / 256 % 256, port % 256]] ∧
      connect grow d conn target = connectReply
        ⟨rest, conn.written ++ negotiation d [5, 2, v, 0] ++ [b.data],
          conn.writeBudget - ([5, 2, v, 0] : Bytes).length / 2 - 1⟩ b := by
    intro hst
    subst hst
    obtain ⟨addr, b, ha, -, -, -, he⟩ := connect_to_reply grow d conn target host port
      [5, 2, v, 0] rest ht (Accepted.password v hcred) hhost (by simpa using hin) hw
    refine ⟨addr, b, ha, ?_, he⟩
    rw [connect_request_written grow d conn target host port [5, 2, v, 0] rest addr ht
      (Accepted.password v hcred) ha (by simpa using hin) hw]
    simp [negotiation]
  refine ⟨⟨fun h hst => ?_, fun hst => by rw [hrej hst]⟩, hrej, fun hst => ?_⟩
  · obtain ⟨addr, b, -, -, he⟩ := hok hst
    have := connectReply_outcome
      ⟨rest, conn.written ++ negotiation d [5, 2, v, 0] ++ [b.data],
        conn.writeBudget - ([5, 2, v, 0] : Bytes).length / 2 - 1⟩ b
    rw [← he, h] at this
    exact this
  · obtain ⟨addr, b, ha, hwr, -⟩ := hok hst
    exact ⟨addr, ha, hwr⟩

/-- Witness of C14: credentials "user"/"pw", authentication reply `01 01`. -/
theorem connect_authentication_reply_witness :
    connect exactGrow ⟨[], str "user", str "pw"⟩ (Conn.fresh [5, 2, 1, 1, 5, 0, 0, 1])
        (str "example.com:80")
      = (.error .rejectedUsernamePassword,
          ⟨[5, 0, 0, 1], [[5, 2, 0, 2], [1, 4, 117, 115, 101, 114, 2, 112, 119]], 1⟩) :=
  (connect_authentication_reply exactGrow ⟨[], str "user", str "pw"⟩
    (Conn.fresh [5, 2, 1, 1, 5, 0, 0, 1]) (str "example.com:80") (str "example.com") 80 1 1
    [5, 0, 0, 1] ⟨str "80", by decide, by decide, by decide, by decide⟩ (by decide)
    (Or.inr (by decide)) (by decide) (by decide)).2.1 (by decide)

/-- C16: for every dialer and valid destination, a greeting reply `05 ff` makes the
dial fail with the authentication-required error, with the greeting as the only thing
written and with the connection to the proxy closed; after a greeting reply `05 m`
with any other `m` the handshake does not fail at the validation of the method. -/
theorem DialContext_no_acceptable_method (grow : Nat → Nat → Nat) (d : socks5Dialer)
    (s : Socket) (ctxDeadline : Option Nat) (now : Nat) (network addr host : Bytes)
    (port m : Nat) (rest : Bytes)
    (hn : network = str "tcp" ∨ network = str "tcp4" ∨ network = str "tcp6")
    (hopen : s.closed = false) (hdl : s.takesDeadlines = true)
    (ht : validTarget addr host port) (hin : s.conn.incoming = 5 :: m :: rest)
    (hw : 1 ≤ s.conn.writeBudget) :
    (m = 0xff →
      (DialContext grow d (some s) ctxDeadline now network addr).1
        = .error (.handshake .requiresAuthentication) ∧
      ∃ sock, (DialContext grow d (some s) ctxDeadline now network addr).2 = some sock ∧
        sock.closed = true ∧ sock.conn.written = s.conn.written ++ [greetingOf d]) ∧
    (m ≠ 0xff →
      (connect grow d s.conn addr).1 ≠ .error .requiresAuthentication ∧
      ∀ v, (connect grow d s.conn addr).1 ≠ .error (.unexpectedVersion v)) := by
  obtain ⟨buf, -, h0, h1, he⟩ := connect_greeting grow d s.conn addr host port
    (s.conn.writeBudget - 1) 5 m rest ht (by omega) hin
  constructor
  · intro hm
    subst hm
    have hc : connect grow d s.conn addr = (.error .requiresAuthentication,
        ⟨rest, s.conn.written ++ [greetingOf d], s.conn.writeBudget - 1⟩) := by
      rw [he]
      simp [connectMethod, h0, h1, socks5Version]
    have hnet : ¬ (network ≠ str "tcp" ∧ network ≠ str "tcp4" ∧ network ≠ str "tcp6") := by
      rcases hn with h | h | h <;> simp [h]
    simp only [DialContext, if_neg hnet, Socket.SetDeadline, hopen, hdl]
    simp [hc, Socket.Close]
  · intro hm
    rw [he]
    exact connectMethod_validated grow d _ buf host port m h0 h1 hm

/-- Witness of C16: no credentials, destination "example.com:80", greeting reply
`05 ff`. -/
theorem DialContext_no_acceptable_method_witness :
    (DialContext exactGrow ⟨[], [], []⟩ (some ⟨Conn.fresh [5, 255], false, none, true⟩) none 0
        (str "tcp") (str "example.com:80")).1 = .error (.handshake .requiresAuthentication) ∧
    ∃ sock, (DialContext exactGrow ⟨[], [], []⟩ (some ⟨Conn.fresh [5, 255], false, none, true⟩)
        none 0 (str "tcp") (str "example.com:80")).2 = some sock ∧
      sock.closed = true ∧ sock.conn.written = [[5, 1, 0]] :=
  (DialContext_no_acceptable_method exactGrow ⟨[], [], []⟩
    ⟨Conn.fresh [5, 255], false, none, true⟩ none 0 (str "tcp") (str "example.com:80")
    (str "example.com") 80 255 [] (Or.inl rfl) rfl rfl
    ⟨str "80", by decide, by decide, by decide, by decide⟩ (by decide) (by decide)).1 (by decide)

/-- C17: `DialContext` on an opened TCP connection `s` to the proxy, for the networks
it supports. If the deadline cannot be set, the call closes `s` and returns the error
of `SetDeadline`. If the handshake returns an error `err`, leaving the byte stream as
`io`, the call closes the connection and returns `err`; an error return carries no
connection. If the handshake succeeds, the call returns that same connection, as the
handshake left it, not closed and with its deadline reset to the zero time. -/
theorem DialContext_closes_on_error (grow : Nat → Nat → Nat) (d : socks5Dialer) (s : Socket)
    (ctxDeadline : Option Nat) (now : Nat) (network addr : Bytes)
    (hn : network = str "tcp" ∨ network = str "tcp4" ∨ network = str "tcp6") :
    (s.closed = true ∨ s.takesDeadlines = false →
      DialContext grow d (some s) ctxDeadline now network addr
        = (.error .setDeadline, some { s with closed := true })) ∧
    (s.closed = false → s.takesDeadlines = true → ∀ (err : Err) (io : Conn),
      connect grow d s.conn addr = (.error err, io) →
      DialContext grow d (some s) ctxDeadline now network addr
        = (.error (.handshake err),
            some { s with conn := io, closed := true,
                          deadline := some (ctxDeadline.getD (now + 30 * 1000000000)) })) ∧
    (s.closed = false → s.takesDeadlines = true → ∀ io : Conn,
      connect grow d s.conn addr = (.ok, io) →
      DialContext grow d (some s) ctxDeadline now network addr
        = (.connected { s with conn := io, deadline := none },
            some { s with conn := io, deadline := none }) ∧
      ({ s with conn := io, deadline := none } : Socket).closed = false) := by
  have hnet : ¬ (network ≠ str "tcp" ∧ network ≠ str "tcp4" ∧ network ≠ str "tcp6") := by
    rcases hn with h | h | h
    · exact fun hh => hh.1 h
    · exact fun hh => hh.2.1 h
    · exact fun hh => hh.2.2 h
  refine ⟨fun hfail => ?_, fun hopen hdl err io hc => ?_, fun hopen hdl io hc => ⟨?_, hopen⟩⟩
  · have hsd : s.closed ∨ ¬ s.takesDeadlines := by
      rcases hfail with h | h
      · exact Or.inl h
      · exact Or.inr (by simp [h])
    simp only [DialContext, if_neg hnet, Socket.SetDeadline, if_pos hsd, Socket.Close]
  · have hsd : ¬ (s.closed ∨ ¬ s.takesDeadlines) := by simp [hopen, hdl]
    simp only [DialContext, if_neg hnet, Socket.SetDeadline, if_neg hsd, hc, Socket.Close]
  · have hsd : ¬ (s.closed ∨ ¬ s.takesDeadlines) := by simp [hopen, hdl]
    simp only [DialContext, if_neg hnet, Socket.SetDeadline, if_neg hsd, hc]

/-- Witness of C17: a connection that is already closed (the deadline cannot be set),
a proxy that stops in the middle of its CONNECT reply (the handshake fails and the
socket is closed, the 30 s deadline still on it), and one that completes the handshake
(the socket comes back open, the deadline it had before the dial replaced by none). -/
theorem DialContext_closes_on_error_witness :
    DialContext exactGrow ⟨[], [], []⟩ (some ⟨Conn.fresh [5, 0], true, none, true⟩)
        none 0 (str "tcp") (str "example.com:80")
      = (.error .setDeadline, some ⟨Conn.fresh [5, 0], true, none, true⟩) ∧
    DialContext exactGrow ⟨[], [], []⟩ (some ⟨Conn.fresh [5, 0, 5], false, none, true⟩)
        none 0 (str "tcp") (str "example.com:80")
      = (.error (.handshake .readConnectReply),
          some ⟨⟨[], [[5, 1, 0], [5, 1, 0, 3, 11] ++ str "example.com" ++ [0, 80]], 1⟩,
            true, some 30000000000, true⟩) ∧
    DialContext exactGrow ⟨[], [], []⟩
        (some ⟨Conn.fresh [5, 0, 5, 0, 0, 1, 10, 0, 0, 1, 0, 80], false, some 7, true⟩)
        (some 9) 0 (str "tcp4") (str "example.com:80")
      = (.connected ⟨⟨[], [[5, 1, 0], [5, 1, 0, 3, 11] ++ str "example.com" ++ [0, 80]], 1⟩,
            false, none, true⟩,
          some ⟨⟨[], [[5, 1, 0], [5, 1, 0, 3, 11] ++ str "example.com" ++ [0, 80]], 1⟩,
            false, none, true⟩) :=
  ⟨(DialContext_closes_on_error exactGrow ⟨[], [], []⟩ ⟨Conn.fresh [5, 0], true, none, true⟩
      none 0 (str "tcp") (str "example.com:80") (Or.inl rfl)).1 (Or.inl rfl),
   (DialContext_closes_on_error exactGrow ⟨[], [], []⟩ ⟨Conn.fresh [5, 0, 5], false, none, true⟩
      none 0 (str "tcp") (str "example.com:80") (Or.inl rfl)).2.1 rfl rfl .readConnectReply
      ⟨[], [[5, 1, 0], [5, 1, 0, 3, 11] ++ str "example.com" ++ [0, 80]], 1⟩ (by decide),
   ((DialContext_closes_on_error exactGrow ⟨[], [], []⟩
      ⟨Conn.fresh [5, 0, 5, 0, 0, 1, 10, 0, 0, 1, 0, 80], false, some 7, true⟩
      (some 9) 0 (str "tcp4") (str "example.com:80") (Or.inr (Or.inl rfl))).2.2 rfl rfl
      ⟨[], [[5, 1, 0], [5, 1, 0, 3, 11] ++ str "example.com" ++ [0, 80]], 1⟩ (by decide)).1⟩

/-- C20: the version byte of the authentication reply, and the version byte (byte 0)
and reserved byte (byte 2) of the CONNECT reply, have no influence on `connect`. For a
handshake that gets to read the authentication reply `auth` (valid destination, usable
credentials, the proxy chose method 0x02, greeting and authentication request could be
written), replacing the first byte of `auth` by any `x` leaves the whole outcome of
`connect` the same: the result, the buffers written and the input left unread, hence
the number of bytes consumed. For a handshake that gets to read the CONNECT reply `rep`
(the replies `pre` before it were accepted and the CONNECT request could be written),
the same holds for replacing bytes 0 and 2 of `rep` by any `v` and `r`. -/
theorem connect_ignores_version_bytes (grow : Nat → Nat → Nat) (d : socks5Dialer)
    (conn : Conn) (target host : Bytes) (port : Nat) (ht : validTarget target host port) :
    (∀ (auth : Bytes) (x : Nat), usableCredentials d → 2 ≤ conn.writeBudget →
      connect grow d { conn with incoming := 5 :: 2 :: auth } target
        = connect grow d { conn with incoming := 5 :: 2 :: auth.set 0 x } target) ∧
    (∀ (pre rep : Bytes) (v r : Nat), Accepted d pre →
      (ParseIP host ≠ [] ∨ host.length ≤ 255) →
      (negotiation d pre).length < conn.writeBudget →
      connect grow d { conn with incoming := pre ++ rep } target
        = connect grow d { conn with incoming := pre ++ (rep.set 0 v).set 2 r } target) := by
  constructor
  · intro auth x hcred hw
    obtain ⟨k, hk⟩ : ∃ k, conn.writeBudget = k + 1 + 1 := ⟨conn.writeBudget - 2, by omega⟩
    obtain ⟨buf, h0, h1, hg⟩ := connect_greeting_uniform grow d target host port 5 2 ht
    obtain ⟨b5, hb5, hauth, hshort⟩ :=
      connectMethod_auth_uniform grow d buf host port h0 h1 hcred
    rw [hg { conn with incoming := 5 :: 2 :: auth } (k + 1) auth hk rfl,
      hg { conn with incoming := 5 :: 2 :: auth.set 0 x } (k + 1) (auth.set 0 x) hk rfl]
    match auth with
    | [] => rfl
    | [a] =>
      rw [hshort ⟨[a], conn.written ++ [greetingOf d], k + 1⟩ k rfl (by simp),
        hshort ⟨[a].set 0 x, conn.written ++ [greetingOf d], k + 1⟩ k rfl (by simp)]
    | a :: st :: rest =>
      have hset : (a :: st :: rest).set 0 x = x :: st :: rest := rfl
      rw [hset, hauth ⟨a :: st :: rest, conn.written ++ [greetingOf d], k + 1⟩ k a st rest rfl rfl,
        hauth ⟨x :: st :: rest, conn.written ++ [greetingOf d], k + 1⟩ k x st rest rfl rfl]
      by_cases hst : st ≠ 0
      · rw [if_pos hst, if_pos hst]
      · rw [if_neg hst, if_neg hst]
        exact connectRequest_first_byte grow _ b5 a x st host port hb5
  · intro pre rep v r hp hhost hw
    obtain ⟨addr, haddr⟩ := addressField_some host hhost
    cases hp with
    | direct m hff hpw =>
      have hn : (negotiation d [5, m]).length = 1 := by simp [negotiation]
      obtain ⟨k, hk⟩ : ∃ k, conn.writeBudget = k + 1 + 1 := ⟨conn.writeBudget - 2, by omega⟩
      obtain ⟨buf, h0, h1, hg⟩ := connect_greeting_uniform grow d target host port 5 m ht
      obtain ⟨b, hb, hreq⟩ := connectRequest_written_uniform grow buf host addr port haddr
      have hlen : 4 ≤ b.data.length := by rw [hb]; simp
      rw [hg { conn with incoming := [5, m] ++ rep } (k + 1) rep hk rfl,
        hg { conn with incoming := [5, m] ++ (rep.set 0 v).set 2 r } (k + 1)
          ((rep.set 0 v).set 2 r) hk rfl,
        connectMethod_direct grow d _ buf host port m h0 h1 hff hpw,
        connectMethod_direct grow d _ buf host port m h0 h1 hff hpw,
        hreq ⟨rep, conn.written ++ [greetingOf d], k + 1⟩ k rfl,
        hreq ⟨(rep.set 0 v).set 2 r, conn.written ++ [greetingOf d], k + 1⟩ k rfl]
      exact connectReply_ignores b rep _ k v r hlen
    | password a hcred =>
      have hn : (negotiation d [5, 2, a, 0]).length = 2 := by simp [negotiation]
      obtain ⟨k, hk⟩ : ∃ k, conn.writeBudget = k + 1 + 1 + 1 :=
        ⟨conn.writeBudget - 3, by omega⟩
      obtain ⟨buf, h0, h1, hg⟩ := connect_greeting_uniform grow d target host port 5 2 ht
      obtain ⟨b5, hb5, hauth, -⟩ :=
        connectMethod_auth_uniform grow d buf host port h0 h1 hcred
      obtain ⟨b, hb, hreq⟩ :=
        connectRequest_written_uniform grow (b5.fill [a, 0]) host addr port haddr
      have hlen : 4 ≤ b.data.length := by rw [hb]; simp
      rw [hg { conn with incoming := [5, 2, a, 0] ++ rep } (k + 1 + 1) (a :: 0 :: rep) hk rfl,
        hg { conn with incoming := [5, 2, a, 0] ++ (rep.set 0 v).set 2 r } (k + 1 + 1)
          (a :: 0 :: (rep.set 0 v).set 2 r) hk rfl,
        hauth ⟨a :: 0 :: rep, conn.written ++ [greetingOf d], k + 1 + 1⟩ (k + 1) a 0 rep rfl rfl,
        hauth ⟨a :: 0 :: (rep.set 0 v).set 2 r, conn.written ++ [greetingOf d], k + 1 + 1⟩
          (k + 1) a 0 ((rep.set 0 v).set 2 r) rfl rfl,
        if_neg (by simp), if_neg (by simp),
        hreq ⟨rep, conn.written ++ [greetingOf d] ++ [authenticationOf d], k + 1⟩ k rfl,
        hreq ⟨(rep.set 0 v).set 2 r, conn.written ++ [greetingOf d] ++ [authenticationOf d],
          k + 1⟩ k rfl]
      exact connectReply_ignores b rep _ k v r hlen

/-- Witness of C20: username "user", destination `example.com:80`. The authentication
reply `01 00` against `09 00`, and the CONNECT reply `05 00 00 01 ...` against
`04 00 07 01 ...`, after a greeting reply `05 00`. -/
theorem connect_ignores_version_bytes_witness :
    connect exactGrow ⟨[], str "user", []⟩
        (Conn.fresh [5, 2, 1, 0, 5, 0, 0, 1, 10, 0, 0, 1, 0, 80]) (str "example.com:80")
      = connect exactGrow ⟨[], str "user", []⟩
        (Conn.fresh [5, 2, 9, 0, 5, 0, 0, 1, 10, 0, 0, 1, 0, 80]) (str "example.com:80") ∧
    connect exactGrow ⟨[], [], []⟩
        (Conn.fresh [5, 0, 5, 0, 0, 1, 10, 0, 0, 1, 0, 80]) (str "example.com:80")
      = connect exactGrow ⟨[], [], []⟩
        (Conn.fresh [5, 0, 4, 0, 7, 1, 10, 0, 0, 1, 0, 80]) (str "example.com:80") :=
  ⟨(connect_ignores_version_bytes exactGrow ⟨[], str "user", []⟩ (Conn.fresh [])
      (str "example.com:80") (str "example.com") 80
      ⟨str "80", by decide, by decide, by decide, by decide⟩).1
      [1, 0, 5, 0, 0, 1, 10, 0, 0, 1, 0, 80] 9 (by decide) (by decide),
   (connect_ignores_version_bytes exactGrow ⟨[], [], []⟩ (Conn.fresh [])
      (str "example.com:80") (str "example.com") 80
      ⟨str "80", by decide, by decide, by decide, by decide⟩).2
      [5, 0] [5, 0, 0, 1, 10, 0, 0, 1, 0, 80] 4 7 (Accepted.direct 0 (by decide) (by decide))
      (Or.inr (by decide)) (by decide)⟩

end Yookassa
